import Mathlib

/-!
# infected_life: Conway's Game of Life followed by the Infection rules

A shallow embedding of `src/type.go` (package `infected_life`) and of the seed decoder
`parseSeed` of `src/cmd/infected_life/main.go`.

Modelling conventions.

* Go's `int` is modelled by `Int`, without wraparound. The only arithmetic of the package
  is `x-1`, `x+1`, `y-1`, `y+1` on coordinates and `currentGeneration++`; a coordinate
  that would wrap at an end of the `int` range is out of bounds before and after wrapping,
  and the counter grows by one per step from 0.
* A Go slice is modelled by a `List`; a `Grid` (`[][]bool`) is a list of rows, each row a
  list of cells, every row owning its cells.
* A run-time panic (slice index out of range, `make` with a negative length) is modelled by
  `none`; a function that returns normally yields `some` of its result. Statements of a Go
  function body are sequenced in the `Option` monad in source order.
* A method that mutates its receiver returns the new value of the receiver.
* A Go `string` is modelled by `String`, and the text `Print` writes to the standard
  output is the string it returns.
-/

namespace InfectedLife

/-! ## Slices and loops -/

/-- Checked slice indexing `s[i]` of Go: `none` when `i` is out of range. -/
def sliceIndex {α : Type} (s : List α) (i : Int) : Option α :=
  if i < 0 then none else s[i.toNat]?

/-- The loop `for i := 0; i < n; i++ { body }` of Go over a loop state of type `σ`:
the body runs for `i = 0, 1, ..., n-1` in this order and a failing body stops the loop. -/
def forLoop {σ : Type} (n : Int) (body : Int → σ → Option σ) (s : σ) : Option σ :=
  (List.range n.toNat).foldlM (fun (st : σ) (i : Nat) => body (Int.ofNat i) st) s

/-! ## Grid -/

/-- Grid represents a two-dimensional grid of cells (`type Grid [][]bool`). -/
abbrev Grid := List (List Bool)

/-- NewGrid returns an empty grid of the specified width and height:
`g := make(Grid, h)`, then `g[i] = make([]bool, w)` for every row. -/
def NewGrid (w h : Int) : Option Grid :=
  if h < 0 then none
  else if h = 0 then some []
  else if w < 0 then none
  else some (List.replicate h.toNat (List.replicate w.toNat false))

/-- Set changes the state of a cell at the specified coordinates: `(*g)[y][x] = alive`.
Here every row owns its cells, as in every grid made by `NewGrid`, the only grids on which
the package calls `Set`; rows that share their cells are the subject of `MemGrid.Set`. -/
def Grid.Set (g : Grid) (x y : Int) (alive : Bool) : Option Grid :=
  match sliceIndex g y with
  | none => none
  | some row =>
    if 0 ≤ x ∧ x < (row.length : Int) then
      some (g.set y.toNat (row.set x.toNat alive))
    else none

/-- Width returns the width of the grid: `len((*g)[0])`. -/
def Grid.Width (g : Grid) : Option Int :=
  match sliceIndex g 0 with
  | none => none
  | some row => some (row.length : Int)

/-- Height returns the height of the grid: `len(*g)`. -/
def Grid.Height (g : Grid) : Int := (g.length : Int)

/-- Alive returns whether the cell at the specified position is alive. -/
def Grid.Alive (g : Grid) (x y : Int) : Option Bool :=
  if x < 0 ∨ y < 0 then some false
  else
    match g.Width with
    | none => none
    | some w =>
      if x ≥ w ∨ y ≥ g.Height then some false
      else
        match sliceIndex g y with
        | none => none
        | some row => sliceIndex row x

/-- The statement `if c { alive++ }`. -/
def incrIf (c : Bool) (alive : Int) : Int := if c then alive + 1 else alive

/-- DiagonalLiveNeighbours returns the amount of diagonally adjacent live cells. -/
def Grid.DiagonalLiveNeighbours (g : Grid) (x y : Int) : Option Int := do
  let alive : Int := 0
  let alive := incrIf (← g.Alive (x - 1) (y - 1)) alive
  let alive := incrIf (← g.Alive (x + 1) (y + 1)) alive
  let alive := incrIf (← g.Alive (x + 1) (y - 1)) alive
  let alive := incrIf (← g.Alive (x - 1) (y + 1)) alive
  pure alive

/-- HorizontalAndVerticalLiveNeighbours returns the amount of horizontally and vertically
adjacent live cells. -/
def Grid.HorizontalAndVerticalLiveNeighbours (g : Grid) (x y : Int) : Option Int := do
  let alive : Int := 0
  let alive := incrIf (← g.Alive (x - 1) y) alive
  let alive := incrIf (← g.Alive (x + 1) y) alive
  let alive := incrIf (← g.Alive x (y - 1)) alive
  let alive := incrIf (← g.Alive x (y + 1)) alive
  pure alive

/-- LiveNeighbours returns the amount of all adjacent live cells. -/
def Grid.LiveNeighbours (g : Grid) (x y : Int) : Option Int := do
  let d ← g.DiagonalLiveNeighbours x y
  let hv ← g.HorizontalAndVerticalLiveNeighbours x y
  pure (d + hv)

/-! ## Rules -/

/-- Life.Apply: `liveNeighbours == 3 || liveNeighbours == 2 && l.g.Alive(x, y)`, with the
short-circuit evaluation of Go (`Alive` is called only when the count is 2). -/
def Life.Apply (g : Grid) (x y : Int) : Option Bool := do
  let liveNeighbours ← g.LiveNeighbours x y
  if liveNeighbours = 3 then pure true
  else if liveNeighbours = 2 then g.Alive x y
  else pure false

/-- Infection.Apply, the rules of "Game of Life: Infection". -/
def Infection.Apply (g : Grid) (x y : Int) : Option Bool := do
  let alive ← g.Alive x y
  let horizontalAndVerticalNeighbours ← g.HorizontalAndVerticalLiveNeighbours x y
  let diagonalNeighbours ← g.DiagonalLiveNeighbours x y
  if alive = false ∧ horizontalAndVerticalNeighbours + diagonalNeighbours = 1 then pure true
  else if alive = true ∧ horizontalAndVerticalNeighbours > 0 then pure true
  else pure false

/-- Rules is the interface wrapping a set of rules; its two implementations are `Life` and
`Infection`, each holding the grid it reads. -/
inductive Rules where
  | Life (g : Grid)
  | Infection (g : Grid)
  deriving DecidableEq

/-- Apply returns the next state of the cell at the specified coordinates. -/
def Rules.Apply : Rules → Int → Int → Option Bool
  | Rules.Life g, x, y => Life.Apply g x y
  | Rules.Infection g, x, y => Infection.Apply g x y

/-! ## Game -/

/-- Game wraps the basic definitions of the game of life and stores the current state of
the grid. -/
structure Game where
  Grid : Grid
  InfectAfter : Int
  MaxGenerations : Int
  currentGeneration : Int
  deriving DecidableEq

/-- NewGame returns an initial Game with the specified definitions. -/
def NewGame (width height infectAfter maxGenerations : Int) : Option Game := do
  let grid ← NewGrid width height
  pure { Grid := grid, InfectAfter := infectAfter, MaxGenerations := maxGenerations,
         currentGeneration := 0 }

/-- Seed replaces the game's grid with the specified one. -/
def Game.Seed (g : Game) (grid : InfectedLife.Grid) : Game :=
  { g with Grid := grid }

/-- Over returns true if the game is over, false otherwise. -/
def Game.Over (g : Game) : Bool :=
  decide (g.currentGeneration ≥ g.MaxGenerations)

/-- The rules that should be applied to cells according to the current game state. -/
def Game.currentRules (g : Game) : Rules :=
  if g.currentGeneration ≤ g.InfectAfter then Rules.Life g.Grid
  else Rules.Infection g.Grid

/-- TimeStep advances the game in 1 generation and applies the new state into the grid.
The loop conditions `y < g.Grid.Height()` and `x < g.Grid.Width()` read the old grid, which
is not assigned before the loops end, so the bounds are the values read at entry. -/
def Game.TimeStep (g : Game) : Option Game := do
  let width ← g.Grid.Width
  let nextGeneration ← NewGrid width g.Grid.Height
  let rules := g.currentRules
  let nextGeneration ←
    forLoop g.Grid.Height (fun y next =>
      forLoop width (fun x next => do
        let v ← rules.Apply x y
        next.Set x y v) next) nextGeneration
  pure { g with Grid := nextGeneration, currentGeneration := g.currentGeneration + 1 }

/-- The game after `k` successive calls of `TimeStep`. -/
def Game.steps : Nat → Game → Option Game
  | 0, g => some g
  | k + 1, g => (g.TimeStep).bind (Game.steps k)

/-! ## Printing -/

/-- Print prints the current state of the grid in a flat format; the result is the text
written to the standard output. The condition `col < g.Width()` of the inner loop is only
evaluated inside the outer loop, so a grid without rows prints the newline alone. -/
def Grid.Print (g : Grid) : Option String := do
  let out ←
    forLoop g.Height (fun row out => do
      let width ← g.Width
      forLoop width (fun col out => do
        if (← g.Alive col row) then pure (out ++ "1") else pure (out ++ "0")) out) ""
  pure (out ++ "\n")

/-! ## The seed decoder of `cmd/infected_life/main.go` -/

/-- The pieces of a text between its spaces: `n` spaces give `n + 1` pieces, the empty
ones included. -/
def splitChars : List Char → List (List Char)
  | [] => [[]]
  | c :: cs =>
    if c = ' ' then [] :: splitChars cs
    else
      match splitChars cs with
      | [] => [[c]]
      | tok :: rest => (c :: tok) :: rest

/-- The call `strings.Split(s, " ")` of Go's standard library. -/
def stringsSplit (s : String) : List String :=
  (splitChars s.toList).map String.mk

/-- The body of the loop of `parseSeed` for the token `v` of index `i`: `y := i / w` and
`x := i % w` (integer division of Go, which fails when `w` is 0), then
`grid.Set(x, y, v == "1")`. -/
def parseSeedBody (w : Int) (grid : Grid) (iv : Nat × String) : Option Grid :=
  if w = 0 then none
  else
    let y := Int.tdiv (Int.ofNat iv.1) w
    let x := Int.tmod (Int.ofNat iv.1) w
    let alive : Bool := decide (iv.2 = "1")
    grid.Set x y alive

/-- parseSeed parses a string that represents a grid of the game, along with width and
height, and returns a Grid filled with cell values. -/
def parseSeed (w h : Int) (seed : String) : Option Grid := do
  let grid ← NewGrid w h
  (stringsSplit seed).enum.foldlM (parseSeedBody w) grid

/-! ## Shape of a grid and pure cell access (used to state properties) -/

/-- A grid is rectangular of width `w` and height `h`: it has `h` rows of `w` cells each. -/
def Grid.Rect (g : Grid) (w h : Nat) : Prop :=
  g.length = h ∧ ∀ row ∈ g, row.length = w

instance (g : Grid) (w h : Nat) : Decidable (g.Rect w h) := by
  unfold Grid.Rect; infer_instance

/-- The stored cell of column `x` in row `y`, `false` where no such cell is stored. -/
def Grid.cell (g : Grid) (x y : Nat) : Bool :=
  (g[y]?.getD [])[x]?.getD false

/-- The state of an integer position as `Alive` reports it on a `w` by `h` grid: the stored
cell for a position inside the grid, dead for every position outside. -/
def Grid.state (g : Grid) (w h : Nat) (x y : Int) : Bool :=
  if 0 ≤ x ∧ x < (w : Int) ∧ 0 ≤ y ∧ y < (h : Int) then g.cell x.toNat y.toNat else false

/-- The number a cell state contributes to a neighbour count. -/
def toCount (b : Bool) : Int := if b then 1 else 0

/-! ## The rules as the specification words them -/

/-- The canonical Conway rules: a cell is alive in the next generation exactly when it is
alive now and has 2 or 3 live neighbours, or it is dead now and has exactly 3 live
neighbours. -/
def canonicalConway (alive : Bool) (liveNeighbours : Int) : Bool :=
  (alive && (liveNeighbours == 2 || liveNeighbours == 3)) ||
    (!alive && liveNeighbours == 3)

/-- The Infection rules: with `o` orthogonal and `d` diagonal live neighbours, a dead cell
becomes alive exactly when `o + d = 1` and a live cell stays alive exactly when `o > 0`. -/
def infectionRule (alive : Bool) (o d : Int) : Bool :=
  (!alive && o + d == 1) || (alive && decide (o > 0))

/-! ## The driver's use of a game -/

/-- The states of a game that the driver loop can reach from
`NewGame(width, height, infectAfter, maxGenerations)`: the fresh game, any state with its
grid replaced by `Seed`, and the result of a `TimeStep` taken while `Over()` is false. -/
inductive Reachable (width height infectAfter maxGenerations : Int) : Game → Prop where
  | fresh (g : Game) :
      NewGame width height infectAfter maxGenerations = some g →
      Reachable width height infectAfter maxGenerations g
  | seed (g : Game) (grid : Grid) :
      Reachable width height infectAfter maxGenerations g →
      Reachable width height infectAfter maxGenerations (g.Seed grid)
  | step (g g' : Game) :
      Reachable width height infectAfter maxGenerations g →
      g.Over = false → g.TimeStep = some g' →
      Reachable width height infectAfter maxGenerations g'

/-! ## The neighbourhood as the specification words it -/

/-- The live neighbour cells of position `(x, y)` on a `w` by `h` grid: the in-bounds cells
`(x', y')` other than `(x, y)` with `|x' - x| <= 1` and `|y' - y| <= 1` that are alive. -/
def liveNeighbourCells (g : Grid) (w h : Nat) (x y : Int) : Finset (Nat × Nat) :=
  (Finset.range w ×ˢ Finset.range h).filter (fun p =>
    ((p.1 : Int), (p.2 : Int)) ≠ (x, y) ∧ |(p.1 : Int) - x| ≤ 1 ∧ |(p.2 : Int) - y| ≤ 1 ∧
      g.Alive (p.1 : Int) (p.2 : Int) = some true)

/-- A grid of height `h` whose first row has `w` cells and whose other rows have at least
`w` cells each. -/
def Grid.Wide (g : Grid) (w h : Nat) : Prop :=
  g.length = h ∧ g[0]?.map List.length = some w ∧ ∀ row ∈ g, w ≤ row.length

instance (g : Grid) (w h : Nat) : Decidable (g.Wide w h) := by
  unfold Grid.Wide; infer_instance

/-! ## A step in another order, as the specification words it -/

/-- The cell coordinates `[0, w) x [0, h)` in the row-major order of `TimeStep`. -/
def cellCoordinates (w h : Nat) : List (Nat × Nat) :=
  (List.range h).flatMap (fun y => (List.range w).map (fun x => (x, y)))

/-- The next grid computed as `TimeStep` does, but visiting the cells in the given order:
a new grid of the dimensions of the old one, then for each `(x, y)` of `order` the result
of the active rule on the old grid is written with `Set`. -/
def Game.nextGridInOrder (g : Game) (order : List (Nat × Nat)) :
    Option InfectedLife.Grid := do
  let width ← g.Grid.Width
  let nextGeneration ← NewGrid width g.Grid.Height
  let rules := g.currentRules
  order.foldlM (fun next p => do
    let v ← rules.Apply (Int.ofNat p.1) (Int.ofNat p.2)
    next.Set (Int.ofNat p.1) (Int.ofNat p.2) v) nextGeneration

/-! ## The rendering as the specification words it -/

/-- The character that renders a cell: `'1'` for a live cell, `'0'` for a dead one. -/
def cellChar (b : Bool) : Char := if b then '1' else '0'

/-- The row-major rendering of the first `n` cells of a grid of width `w`: the character of
index `i` renders the cell of column `i % w` in row `i / w`. -/
def renderCells (g : Grid) (w n : Nat) : List Char :=
  (List.range n).map (fun i => cellChar (g.cell (i % w) (i / w)))

/-- The grid holds exactly one live cell, the one of column `x0` in row `y0`. -/
def Grid.onlyLiveCell (g : Grid) (x0 y0 : Nat) : Prop :=
  ∀ x y : Nat, g.cell x y = true ↔ (x = x0 ∧ y = y0)

/-! ## Grids in memory: rows that may share their cells

In `Grid` above every row owns its cells. A Go slice is a view of a backing array, and two
rows of a `[][]bool` built by a caller may view the same cells (`Grid{row, row}`). `Set`
writes the cell in place, so what it changes depends on this sharing. For the frame
property of `Set`, the four methods it involves are embedded again over an explicit memory
of cells. -/

/-- A row of a grid in memory, a slice `[]bool`: the address of its first cell and its
length. -/
structure RowSlice where
  base : Nat
  len : Nat
  deriving DecidableEq

/-- The address of the cell `row[x]`: `none` when `x` is out of range. -/
def RowSlice.index (row : RowSlice) (x : Int) : Option Nat :=
  if x < 0 ∨ (row.len : Int) ≤ x then none else some (row.base + x.toNat)

/-- A grid in memory: the cells of the backing arrays, a cell's address being its position
in the list, and the rows of the `[][]bool`. -/
structure MemGrid where
  cells : List Bool
  rows : List RowSlice
  deriving DecidableEq

/-- Set changes the state of a cell at the specified coordinates: `(*g)[y][x] = alive`
writes the cell of the row's backing array in place. -/
def MemGrid.Set (g : MemGrid) (x y : Int) (alive : Bool) : Option MemGrid :=
  match sliceIndex g.rows y with
  | none => none
  | some row =>
    match row.index x with
    | none => none
    | some addr =>
      if addr < g.cells.length then some { g with cells := g.cells.set addr alive }
      else none

/-- Width returns the width of the grid: `len((*g)[0])`. -/
def MemGrid.Width (g : MemGrid) : Option Int :=
  match sliceIndex g.rows 0 with
  | none => none
  | some row => some (row.len : Int)

/-- Height returns the height of the grid: `len(*g)`. -/
def MemGrid.Height (g : MemGrid) : Int := (g.rows.length : Int)

/-- Alive returns whether the cell at the specified position is alive. -/
def MemGrid.Alive (g : MemGrid) (x y : Int) : Option Bool :=
  if x < 0 ∨ y < 0 then some false
  else
    match g.Width with
    | none => none
    | some w =>
      if x ≥ w ∨ y ≥ g.Height then some false
      else
        match sliceIndex g.rows y with
        | none => none
        | some row =>
          match row.index x with
          | none => none
          | some addr => g.cells[addr]?

/-- The address of the cell `(*g)[y][x]`, `none` when there is no such cell. -/
def MemGrid.cellAddress (g : MemGrid) (x y : Int) : Option Nat :=
  match sliceIndex g.rows y with
  | none => none
  | some row => row.index x

/-- A grid in memory is rectangular of width `w` and height `h`. -/
def MemGrid.Rect (g : MemGrid) (w h : Nat) : Prop :=
  g.rows.length = h ∧ ∀ row ∈ g.rows, row.len = w

instance (g : MemGrid) (w h : Nat) : Decidable (g.Rect w h) := by
  unfold MemGrid.Rect; infer_instance

/-- Every row lies inside the allocated cells, as the rows of a Go value do. -/
def MemGrid.Allocated (g : MemGrid) : Prop :=
  ∀ row ∈ g.rows, row.base + row.len ≤ g.cells.length

instance (g : MemGrid) : Decidable g.Allocated := by
  unfold MemGrid.Allocated; infer_instance

/-- No two rows share a cell. -/
def MemGrid.OwnRows (g : MemGrid) : Prop :=
  ∀ i j : Fin g.rows.length, i ≠ j →
    (g.rows.get i).base + (g.rows.get i).len ≤ (g.rows.get j).base ∨
      (g.rows.get j).base + (g.rows.get j).len ≤ (g.rows.get i).base

instance (g : MemGrid) : Decidable g.OwnRows := by
  unfold MemGrid.OwnRows; infer_instance

/-! ## Basic facts -/

theorem sliceIndex_natCast {α : Type} (s : List α) (n : Nat) :
    sliceIndex s (n : Int) = s[n]? := by
  simp [sliceIndex]

theorem sliceIndex_of_nonneg {α : Type} (s : List α) (i : Int) (hi : 0 ≤ i) :
    sliceIndex s i = s[i.toNat]? := by
  simp [sliceIndex, not_lt.mpr hi]

theorem Grid.Rect.row_length {g : Grid} {w h : Nat} (hr : g.Rect w h) {y : Nat}
    (hy : y < h) : (g[y]?.getD []).length = w := by
  obtain ⟨hl, hrow⟩ := hr
  have hy' : y < g.length := by omega
  rw [List.getElem?_eq_getElem hy']
  exact hrow _ (List.getElem_mem hy')

theorem Grid.Rect.getElem? {g : Grid} {w h : Nat} (hr : g.Rect w h) {y : Nat}
    (hy : y < h) : g[y]? = some (g[y]?.getD []) := by
  have hy' : y < g.length := by have := hr.1; omega
  rw [List.getElem?_eq_getElem hy']
  rfl

theorem Grid.Width_of_rect {g : Grid} {w h : Nat} (hr : g.Rect w h) (hh : 0 < h) :
    g.Width = some (w : Int) := by
  have h0 : sliceIndex g 0 = some (g[0]?.getD []) := by
    have := sliceIndex_natCast g 0
    simp only [Nat.cast_zero] at this
    rw [this]
    exact hr.getElem? hh
  rw [Grid.Width, h0]
  simp only
  rw [hr.row_length hh]

theorem Grid.Height_of_rect {g : Grid} {w h : Nat} (hr : g.Rect w h) :
    g.Height = (h : Int) := by
  simp [Grid.Height, hr.1]

/-- On a rectangular grid with at least one row `Alive` returns at every integer position:
the stored cell inside the grid, `false` outside. -/
theorem Grid.Alive_of_rect {g : Grid} {w h : Nat} (hr : g.Rect w h) (hh : 0 < h)
    (x y : Int) :
    g.Alive x y =
      some (if 0 ≤ x ∧ x < (w : Int) ∧ 0 ≤ y ∧ y < (h : Int)
            then g.cell x.toNat y.toNat else false) := by
  unfold Grid.Alive
  by_cases hneg : x < 0 ∨ y < 0
  · rw [if_pos hneg, if_neg (by omega)]
  · rw [if_neg hneg, Grid.Width_of_rect hr hh, Grid.Height_of_rect hr]
    simp only
    by_cases hout : x ≥ (w : Int) ∨ y ≥ (h : Int)
    · rw [if_pos hout, if_neg (by omega)]
    · rw [if_neg hout, if_pos (by omega)]
      have hy : y.toNat < h := by omega
      have hx : x.toNat < w := by omega
      have hlen := hr.row_length hy
      rw [sliceIndex_of_nonneg g y (by omega), hr.getElem? hy]
      simp only
      rw [sliceIndex_of_nonneg _ x (by omega), Grid.cell]
      rw [List.getElem?_eq_getElem (by omega)]
      rfl

theorem Grid.Alive_natCast_of_rect {g : Grid} {w h : Nat} (hr : g.Rect w h)
    {x y : Nat} (hx : x < w) (hy : y < h) :
    g.Alive (x : Int) (y : Int) = some (g.cell x y) := by
  rw [Grid.Alive_of_rect hr (by omega), if_pos (by omega)]
  simp

/-! ## Set on a rectangular grid -/

theorem Grid.Set_of_rect {g : Grid} {w h : Nat} (hr : g.Rect w h) {x y : Nat}
    (hx : x < w) (hy : y < h) (a : Bool) :
    g.Set (x : Int) (y : Int) a = some (g.set y ((g[y]?.getD []).set x a)) := by
  have hlen := hr.row_length hy
  rw [Grid.Set, sliceIndex_natCast, hr.getElem? hy]
  simp only
  rw [if_pos (by omega)]
  simp

theorem Grid.Rect.set {g : Grid} {w h : Nat} (hr : g.Rect w h) {x y : Nat}
    (hy : y < h) (a : Bool) :
    Grid.Rect (g.set y ((g[y]?.getD []).set x a)) w h := by
  have hlen := hr.row_length hy
  refine ⟨by simpa using hr.1, ?_⟩
  intro row hrow
  rcases List.mem_or_eq_of_mem_set hrow with hmem | heq
  · exact hr.2 row hmem
  · subst heq; simpa using hlen

theorem Grid.cell_set {g : Grid} {w h : Nat} (hr : g.Rect w h) {x y : Nat}
    (hx : x < w) (hy : y < h) (a : Bool) (x' y' : Nat) :
    Grid.cell (g.set y ((g[y]?.getD []).set x a)) x' y' =
      if x' = x ∧ y' = y then a else g.cell x' y' := by
  have hlen := hr.row_length hy
  have hyl : y < g.length := by have := hr.1; omega
  unfold Grid.cell
  by_cases hyy : y' = y
  · subst hyy
    rw [List.getElem?_set_self hyl]
    by_cases hxx : x' = x
    · subst hxx
      simp only [Option.getD_some]
      rw [List.getElem?_set_self (by omega)]
      simp
    · simp only [Option.getD_some]
      rw [List.getElem?_set_ne (by omega)]
      simp [hxx]
  · rw [List.getElem?_set_ne (by omega)]
    simp [hyy]

/-! ## Loops -/

theorem forLoop_succ {σ : Type} (n : Nat) (body : Int → σ → Option σ) (s : σ) :
    forLoop ((n + 1 : Nat) : Int) body s =
      (forLoop (n : Int) body s).bind (body (n : Int)) := by
  simp only [forLoop, Int.toNat_ofNat, List.range_succ, List.foldlM_append]
  simp [Option.bind_eq_bind]

/-- Invariant rule for `forLoop`: an invariant that holds at entry and is carried by every
iteration whose body returns makes the loop return in a state satisfying it. -/
theorem forLoop_invariant {σ : Type} (n : Nat) (body : Int → σ → Option σ) (s : σ)
    (P : Nat → σ → Prop) (h0 : P 0 s)
    (hstep : ∀ i, i < n → ∀ st, P i st → ∃ st', body (i : Int) st = some st' ∧ P (i + 1) st') :
    ∃ st', forLoop (n : Int) body s = some st' ∧ P n st' := by
  induction n with
  | zero => exact ⟨s, by simp [forLoop], h0⟩
  | succ n ih =>
    obtain ⟨st, hst, hP⟩ := ih (fun i hi => hstep i (by omega))
    obtain ⟨st', hb, hP'⟩ := hstep n (by omega) st hP
    exact ⟨st', by rw [forLoop_succ, hst]; exact hb, hP'⟩

/-! ## Neighbour counts and rules on a rectangular grid -/

theorem Grid.Alive_eq_state {g : Grid} {w h : Nat} (hr : g.Rect w h) (hh : 0 < h)
    (x y : Int) : g.Alive x y = some (g.state w h x y) :=
  Grid.Alive_of_rect hr hh x y

theorem Grid.DiagonalLiveNeighbours_of_rect {g : Grid} {w h : Nat} (hr : g.Rect w h)
    (hh : 0 < h) (x y : Int) :
    g.DiagonalLiveNeighbours x y =
      some (toCount (g.state w h (x - 1) (y - 1)) + toCount (g.state w h (x + 1) (y + 1))
        + toCount (g.state w h (x + 1) (y - 1)) + toCount (g.state w h (x - 1) (y + 1))) := by
  simp only [Grid.DiagonalLiveNeighbours, Grid.Alive_eq_state hr hh, bind_pure_comp,
    Option.map_eq_map, Option.map_some', Option.bind_eq_bind, Option.some_bind, pure,
    Option.some.injEq]
  simp only [incrIf, toCount]
  split_ifs <;> rfl

theorem Grid.HorizontalAndVerticalLiveNeighbours_of_rect {g : Grid} {w h : Nat}
    (hr : g.Rect w h) (hh : 0 < h) (x y : Int) :
    g.HorizontalAndVerticalLiveNeighbours x y =
      some (toCount (g.state w h (x - 1) y) + toCount (g.state w h (x + 1) y)
        + toCount (g.state w h x (y - 1)) + toCount (g.state w h x (y + 1))) := by
  simp only [Grid.HorizontalAndVerticalLiveNeighbours, Grid.Alive_eq_state hr hh,
    bind_pure_comp, Option.map_eq_map, Option.map_some', Option.bind_eq_bind,
    Option.some_bind, pure, Option.some.injEq]
  simp only [incrIf, toCount]
  split_ifs <;> rfl

theorem Grid.LiveNeighbours_of_rect {g : Grid} {w h : Nat} (hr : g.Rect w h)
    (hh : 0 < h) (x y : Int) :
    g.LiveNeighbours x y =
      some ((toCount (g.state w h (x - 1) (y - 1)) + toCount (g.state w h (x + 1) (y + 1))
        + toCount (g.state w h (x + 1) (y - 1)) + toCount (g.state w h (x - 1) (y + 1)))
        + (toCount (g.state w h (x - 1) y) + toCount (g.state w h (x + 1) y)
        + toCount (g.state w h x (y - 1)) + toCount (g.state w h x (y + 1)))) := by
  simp [Grid.LiveNeighbours, Grid.DiagonalLiveNeighbours_of_rect hr hh,
    Grid.HorizontalAndVerticalLiveNeighbours_of_rect hr hh]

theorem Life_Apply_isSome_of_rect {g : Grid} {w h : Nat} (hr : g.Rect w h) (hh : 0 < h)
    (x y : Int) : ∃ v, Life.Apply g x y = some v := by
  simp only [Life.Apply, Grid.LiveNeighbours_of_rect hr hh, Grid.Alive_eq_state hr hh,
    Option.bind_eq_bind, Option.some_bind, pure]
  split_ifs <;> exact ⟨_, rfl⟩

theorem Infection_Apply_isSome_of_rect {g : Grid} {w h : Nat} (hr : g.Rect w h)
    (hh : 0 < h) (x y : Int) : ∃ v, Infection.Apply g x y = some v := by
  simp only [Infection.Apply, Grid.DiagonalLiveNeighbours_of_rect hr hh,
    Grid.HorizontalAndVerticalLiveNeighbours_of_rect hr hh, Grid.Alive_eq_state hr hh,
    Option.bind_eq_bind, Option.some_bind, pure]
  split_ifs <;> exact ⟨_, rfl⟩

theorem Game.currentRules_isSome_of_rect {g : Game} {w h : Nat} (hr : g.Grid.Rect w h)
    (hh : 0 < h) (x y : Int) : ∃ v, g.currentRules.Apply x y = some v := by
  unfold Game.currentRules
  split_ifs
  · exact Life_Apply_isSome_of_rect hr hh x y
  · exact Infection_Apply_isSome_of_rect hr hh x y

/-! ## NewGrid -/

theorem NewGrid_natCast (w h : Nat) (hh : 0 < h) :
    NewGrid (w : Int) (h : Int) = some (List.replicate h (List.replicate w false)) := by
  unfold NewGrid
  rw [if_neg (by omega), if_neg (by omega), if_neg (by omega)]
  simp

theorem rect_replicate (w h : Nat) :
    Grid.Rect (List.replicate h (List.replicate w false)) w h := by
  refine ⟨by simp, ?_⟩
  intro row hrow
  rw [List.eq_of_mem_replicate hrow]
  simp

theorem cell_replicate (w h x y : Nat) :
    Grid.cell (List.replicate h (List.replicate w false)) x y = false := by
  unfold Grid.cell
  by_cases hy : y < h
  · rw [List.getElem?_replicate, if_pos hy]
    by_cases hx : x < w
    · simp [List.getElem?_replicate, hx]
    · simp [List.getElem?_replicate, hx]
  · simp [List.getElem?_replicate, hy]

/-! ## TimeStep on a rectangular grid -/

/-- The inner loop of `TimeStep` for row `y`: it returns, keeps the shape of the new grid,
writes `v x y` into the cells of row `y` and leaves every other cell as it was. -/
theorem rowLoop_of_rect (rules : Rules) (v : Nat → Nat → Bool) {w h : Nat}
    (hv : ∀ x y : Nat, rules.Apply (x : Int) (y : Int) = some (v x y))
    {y : Nat} (hy : y < h) (next : Grid) (hn : next.Rect w h) :
    ∃ st : Grid,
      forLoop (w : Int) (fun x nx => do
        let b ← rules.Apply x (y : Int)
        nx.Set x (y : Int) b) next = some st ∧
      st.Rect w h ∧
      ∀ x' y' : Nat, st.cell x' y' = if y' = y ∧ x' < w then v x' y else next.cell x' y' := by
  have key := forLoop_invariant w (fun x nx => do
        let b ← rules.Apply x (y : Int)
        nx.Set x (y : Int) b) next
    (fun j st => st.Rect w h ∧
      ∀ x' y' : Nat, st.cell x' y' = if y' = y ∧ x' < j then v x' y else next.cell x' y')
    ⟨hn, by intro x' y'; simp⟩
    (by
      intro i hi st hst
      obtain ⟨hrect, hcell⟩ := hst
      refine ⟨st.set y ((st[y]?.getD []).set i (v i y)), ?_, hrect.set hy _, ?_⟩
      · simp only [hv, Option.bind_eq_bind, Option.some_bind]
        exact Grid.Set_of_rect hrect hi hy _
      · intro x' y'
        rw [Grid.cell_set hrect hi hy, hcell]
        by_cases h1 : x' = i ∧ y' = y
        · obtain ⟨rfl, rfl⟩ := h1
          simp
        · rw [if_neg h1]
          by_cases h2 : y' = y
          · have h3 : x' ≠ i := fun hx => h1 ⟨hx, h2⟩
            have h4 : (x' < i + 1) ↔ (x' < i) := by omega
            simp [h2, h4]
          · simp [h2])
  obtain ⟨st, hst, hrect, hcell⟩ := key
  exact ⟨st, hst, hrect, hcell⟩

/-- The two nested loops of `TimeStep`: they return a grid of the same shape whose every
cell holds the value the rules give for it. -/
theorem gridLoop_of_rect (rules : Rules) (v : Nat → Nat → Bool) {w h : Nat}
    (hv : ∀ x y : Nat, rules.Apply (x : Int) (y : Int) = some (v x y))
    (next : Grid) (hn : next.Rect w h) :
    ∃ st : Grid,
      forLoop (h : Int) (fun y nx =>
        forLoop (w : Int) (fun x nx => do
          let b ← rules.Apply x y
          nx.Set x y b) nx) next = some st ∧
      st.Rect w h ∧
      ∀ x' y' : Nat, x' < w → y' < h → st.cell x' y' = v x' y' := by
  have key := forLoop_invariant h (fun y nx =>
        forLoop (w : Int) (fun x nx => do
          let b ← rules.Apply x y
          nx.Set x y b) nx) next
    (fun k st => st.Rect w h ∧
      ∀ x' y' : Nat, st.cell x' y' = if y' < k ∧ x' < w then v x' y' else next.cell x' y')
    ⟨hn, by intro x' y'; simp⟩
    (by
      intro i hi st hst
      obtain ⟨hrect, hcell⟩ := hst
      obtain ⟨st', hst', hrect', hcell'⟩ := rowLoop_of_rect rules v hv hi st hrect
      refine ⟨st', hst', hrect', ?_⟩
      intro x' y'
      rw [hcell', hcell]
      by_cases h1 : y' = i
      · subst h1
        by_cases h2 : x' < w
        · simp [h2]
        · simp [h2]
      · have h4 : (y' < i + 1) ↔ (y' < i) := by omega
        simp [h1, h4])
  obtain ⟨st, hst, hrect, hcell⟩ := key
  refine ⟨st, hst, hrect, ?_⟩
  intro x' y' hx hy
  rw [hcell, if_pos ⟨hy, hx⟩]

/-- The value the active rules return for a cell, `false` where they do not return. -/
theorem Game.currentRules_getD {g : Game} {w h : Nat} (hr : g.Grid.Rect w h) (hh : 0 < h)
    (x y : Int) :
    g.currentRules.Apply x y = some ((g.currentRules.Apply x y).getD false) := by
  obtain ⟨v, hv⟩ := Game.currentRules_isSome_of_rect hr hh x y
  rw [hv]; rfl

/-- One step on a rectangular grid with at least one row: `TimeStep` returns, the new grid
has the shape of the old one, each of its cells holds what the active rules return for that
cell on the old grid, and only the grid and the generation counter change. -/
theorem Game.TimeStep_of_rect {g : Game} {w h : Nat} (hr : g.Grid.Rect w h) (hh : 0 < h) :
    ∃ next : InfectedLife.Grid,
      g.TimeStep = some { g with Grid := next, currentGeneration := g.currentGeneration + 1 } ∧
      next.Rect w h ∧
      ∀ x y : Nat, x < w → y < h →
        g.currentRules.Apply (x : Int) (y : Int) = some (next.cell x y) := by
  obtain ⟨st, hst, hrect, hcell⟩ :=
    gridLoop_of_rect g.currentRules
      (fun x y => (g.currentRules.Apply (x : Int) (y : Int)).getD false)
      (fun x y => Game.currentRules_getD hr hh x y)
      (List.replicate h (List.replicate w false)) (rect_replicate w h)
  refine ⟨st, ?_, hrect, ?_⟩
  · simp only [Option.bind_eq_bind] at hst
    simp only [Game.TimeStep, Grid.Width_of_rect hr hh, Grid.Height_of_rect hr,
      NewGrid_natCast w h hh, Option.bind_eq_bind, Option.some_bind, hst, pure]
  · intro x y hx hy
    rw [hcell x y hx hy]
    exact Game.currentRules_getD hr hh x y

/-! ## Several steps -/

theorem Game.TimeStep_fields {g g' : Game} (hs : g.TimeStep = some g') :
    g'.currentGeneration = g.currentGeneration + 1 ∧ g'.InfectAfter = g.InfectAfter ∧
      g'.MaxGenerations = g.MaxGenerations := by
  simp only [Game.TimeStep, Option.bind_eq_bind, Option.bind_eq_some, pure,
    Option.some.injEq] at hs
  obtain ⟨_, _, _, _, _, _, rfl⟩ := hs
  exact ⟨rfl, rfl, rfl⟩

theorem Game.steps_succ (k : Nat) (g : Game) :
    g.steps (k + 1) = (g.steps k).bind Game.TimeStep := by
  induction k generalizing g with
  | zero => simp [Game.steps]
  | succ k ih =>
    rw [Game.steps]
    cases hts : g.TimeStep with
    | none => simp [Game.steps, hts]
    | some g1 =>
      rw [Option.some_bind, ih g1]
      conv_rhs => rw [Game.steps, hts, Option.some_bind]

/-- Stepping `k` times from a rectangular grid with at least one row returns; the shape of
the grid and the two settings are kept and the generation counter has grown by `k`. -/
theorem Game.steps_of_rect (k : Nat) {g : Game} {w h : Nat} (hr : g.Grid.Rect w h)
    (hh : 0 < h) :
    ∃ gk : Game, g.steps k = some gk ∧ gk.Grid.Rect w h ∧
      gk.currentGeneration = g.currentGeneration + (k : Int) ∧
      gk.InfectAfter = g.InfectAfter ∧ gk.MaxGenerations = g.MaxGenerations := by
  induction k with
  | zero => exact ⟨g, rfl, hr, by simp, rfl, rfl⟩
  | succ k ih =>
    obtain ⟨gk, hk, hrk, hgen, hia, hmg⟩ := ih
    obtain ⟨next, hstep, hrn, _⟩ := Game.TimeStep_of_rect hrk hh
    refine ⟨{ gk with Grid := next, currentGeneration := gk.currentGeneration + 1 },
      by rw [Game.steps_succ, hk, Option.some_bind, hstep], hrn, ?_, hia, hmg⟩
    simp only [hgen]
    push_cast
    ring

theorem NewGame_natCast (w h : Nat) (hh : 0 < h) (ia mg : Int) :
    NewGame (w : Int) (h : Int) ia mg =
      some { Grid := List.replicate h (List.replicate w false), InfectAfter := ia,
             MaxGenerations := mg, currentGeneration := 0 } := by
  simp [NewGame, NewGrid_natCast w h hh]

/-! ## Counting live neighbour cells -/

theorem sum_range_single (n : Nat) (c : Int) (f : Nat → Int) :
    (∑ i ∈ Finset.range n, if (i : Int) = c then f i else 0) =
      if 0 ≤ c ∧ c < (n : Int) then f c.toNat else 0 := by
  by_cases hc : 0 ≤ c ∧ c < (n : Int)
  · rw [if_pos hc, Finset.sum_eq_single c.toNat]
    · rw [if_pos (by omega)]
    · intro b _ hb
      rw [if_neg (by omega)]
    · intro hnot
      exact absurd (Finset.mem_range.mpr (by omega)) hnot
  · rw [if_neg hc]
    apply Finset.sum_eq_zero
    intro i hi
    have := Finset.mem_range.mp hi
    rw [if_neg (by omega)]

theorem sum_grid_single (g : Grid) (w h : Nat) (cx cy : Int) :
    (∑ i ∈ Finset.range w, ∑ j ∈ Finset.range h,
        if (i : Int) = cx ∧ (j : Int) = cy then toCount (g.cell i j) else 0) =
      toCount (g.state w h cx cy) := by
  have inner : ∀ i : Nat, (∑ j ∈ Finset.range h,
        if (i : Int) = cx ∧ (j : Int) = cy then toCount (g.cell i j) else 0) =
      if (i : Int) = cx then
        (if 0 ≤ cy ∧ cy < (h : Int) then toCount (g.cell i cy.toNat) else 0) else 0 := by
    intro i
    by_cases hi : (i : Int) = cx
    · simp only [hi, true_and, if_true]
      exact sum_range_single h cy (fun j => toCount (g.cell i j))
    · simp [hi]
  simp only [inner]
  rw [sum_range_single w cx
    (fun i => if 0 ≤ cy ∧ cy < (h : Int) then toCount (g.cell i cy.toNat) else 0)]
  unfold Grid.state
  by_cases hx : 0 ≤ cx ∧ cx < (w : Int)
  · by_cases hy : 0 ≤ cy ∧ cy < (h : Int)
    · rw [if_pos hx, if_pos hy, if_pos ⟨hx.1, hx.2, hy.1, hy.2⟩]
    · rw [if_pos hx, if_neg hy, if_neg (fun hc => hy ⟨hc.2.2.1, hc.2.2.2⟩)]
      rfl
  · rw [if_neg hx, if_neg (fun hc => hx ⟨hc.1, hc.2.1⟩)]
    rfl

/-- A cell counts as a live neighbour cell of `(x, y)` exactly when it is one of the eight
positions around `(x, y)` and is alive. -/
theorem neighbour_indicator (x y : Int) (i j : Nat) (b : Bool) :
    (if ((i : Int), (j : Int)) ≠ (x, y) ∧ |(i : Int) - x| ≤ 1 ∧ |(j : Int) - y| ≤ 1 ∧
        b = true then (1 : Int) else 0) =
      ((if (i : Int) = x - 1 ∧ (j : Int) = y - 1 then toCount b else 0)
        + (if (i : Int) = x + 1 ∧ (j : Int) = y + 1 then toCount b else 0)
        + (if (i : Int) = x + 1 ∧ (j : Int) = y - 1 then toCount b else 0)
        + (if (i : Int) = x - 1 ∧ (j : Int) = y + 1 then toCount b else 0))
      + ((if (i : Int) = x - 1 ∧ (j : Int) = y then toCount b else 0)
        + (if (i : Int) = x + 1 ∧ (j : Int) = y then toCount b else 0)
        + (if (i : Int) = x ∧ (j : Int) = y - 1 then toCount b else 0)
        + (if (i : Int) = x ∧ (j : Int) = y + 1 then toCount b else 0)) := by
  cases b
  · simp [toCount]
  · simp only [toCount, if_true, ne_eq, Prod.mk.injEq, abs_le, and_true]
    split_ifs <;> omega

theorem card_liveNeighbourCells {g : Grid} {w h : Nat} (hr : g.Rect w h) (x y : Int) :
    ((liveNeighbourCells g w h x y).card : Int) =
      (toCount (g.state w h (x - 1) (y - 1)) + toCount (g.state w h (x + 1) (y + 1))
        + toCount (g.state w h (x + 1) (y - 1)) + toCount (g.state w h (x - 1) (y + 1)))
      + (toCount (g.state w h (x - 1) y) + toCount (g.state w h (x + 1) y)
        + toCount (g.state w h x (y - 1)) + toCount (g.state w h x (y + 1))) := by
  unfold liveNeighbourCells
  rw [Finset.card_filter, Nat.cast_sum, Finset.sum_product]
  have hterm : ∀ i ∈ Finset.range w, ∀ j ∈ Finset.range h,
      (((if ((i : Int), (j : Int)) ≠ (x, y) ∧ |(i : Int) - x| ≤ 1 ∧ |(j : Int) - y| ≤ 1 ∧
          g.Alive (i : Int) (j : Int) = some true then 1 else 0 : Nat) : Int)) =
      ((if (i : Int) = x - 1 ∧ (j : Int) = y - 1 then toCount (g.cell i j) else 0)
        + (if (i : Int) = x + 1 ∧ (j : Int) = y + 1 then toCount (g.cell i j) else 0)
        + (if (i : Int) = x + 1 ∧ (j : Int) = y - 1 then toCount (g.cell i j) else 0)
        + (if (i : Int) = x - 1 ∧ (j : Int) = y + 1 then toCount (g.cell i j) else 0))
      + ((if (i : Int) = x - 1 ∧ (j : Int) = y then toCount (g.cell i j) else 0)
        + (if (i : Int) = x + 1 ∧ (j : Int) = y then toCount (g.cell i j) else 0)
        + (if (i : Int) = x ∧ (j : Int) = y - 1 then toCount (g.cell i j) else 0)
        + (if (i : Int) = x ∧ (j : Int) = y + 1 then toCount (g.cell i j) else 0)) := by
    intro i hi j hj
    have hi' := Finset.mem_range.mp hi
    have hj' := Finset.mem_range.mp hj
    rw [Grid.Alive_natCast_of_rect hr hi' hj', ← neighbour_indicator x y i j (g.cell i j)]
    simp only [Option.some.injEq]
    split_ifs <;> rfl
  refine (Finset.sum_congr rfl (fun i hi =>
    Finset.sum_congr rfl (fun j hj => hterm i hi j hj))).trans ?_
  simp only [Finset.sum_add_distrib, sum_grid_single]

/-! ## Printing a rectangular grid -/

theorem renderCells_succ (g : Grid) (w n : Nat) :
    renderCells g w (n + 1) = renderCells g w n ++ [cellChar (g.cell (n % w) (n / w))] := by
  simp [renderCells, List.range_succ]

theorem index_mod_width {w x : Nat} (y : Nat) (hx : x < w) : (y * w + x) % w = x := by
  rw [Nat.mul_add_mod_of_lt hx]

theorem index_div_width {w x : Nat} (y : Nat) (hx : x < w) : (y * w + x) / w = y := by
  have hw : 0 < w := by omega
  rw [Nat.add_comm, Nat.add_mul_div_right _ _ hw, Nat.div_eq_of_lt hx, Nat.zero_add]

/-- The inner loop of `Print` for row `y` appends the rendering of the cells of the row. -/
theorem printRow_of_rect {g : Grid} {w h : Nat} (hr : g.Rect w h) {y : Nat} (hy : y < h)
    (out : String) (hout : out.data = renderCells g w (y * w)) :
    ∃ out' : String,
      forLoop (w : Int) (fun col out => do
        if (← g.Alive col (y : Int)) then pure (out ++ "1") else pure (out ++ "0")) out
        = some out' ∧
      out'.data = renderCells g w ((y + 1) * w) := by
  have key := forLoop_invariant w (fun col out => do
        if (← g.Alive col (y : Int)) then pure (out ++ "1") else pure (out ++ "0")) out
    (fun j st => st.data = renderCells g w (y * w + j))
    (by simpa using hout)
    (by
      intro i hi st hst
      refine ⟨st ++ (if g.cell i y then "1" else "0"), ?_, ?_⟩
      · simp only [Grid.Alive_natCast_of_rect hr hi hy, Option.bind_eq_bind, Option.some_bind]
        cases g.cell i y <;> rfl
      · show (st ++ (if g.cell i y then "1" else "0")).data =
          renderCells g w (y * w + (i + 1))
        rw [← Nat.add_assoc, renderCells_succ, index_mod_width y hi, index_div_width y hi,
          String.data_append, hst]
        cases g.cell i y <;> rfl)
  obtain ⟨out', hrun, hdata⟩ := key
  refine ⟨out', hrun, ?_⟩
  rw [hdata, Nat.add_mul, Nat.one_mul]

/-- Print on a rectangular grid with at least one row returns the row-major rendering of
its `w * h` cells followed by a newline. -/
theorem Grid.Print_of_rect {g : Grid} {w h : Nat} (hr : g.Rect w h) (hh : 0 < h) :
    g.Print = some (String.mk (renderCells g w (h * w)) ++ "\n") := by
  have key := forLoop_invariant h (fun row out => do
      let width ← g.Width
      forLoop width (fun col out => do
        if (← g.Alive col row) then pure (out ++ "1") else pure (out ++ "0")) out) ""
    (fun k st => st.data = renderCells g w (k * w))
    (by simp [renderCells])
    (by
      intro i hi st hst
      obtain ⟨out', hrun, hdata⟩ := printRow_of_rect hr hi st hst
      refine ⟨out', ?_, hdata⟩
      simp only [Grid.Width_of_rect hr hh, Option.bind_eq_bind, Option.some_bind]
      simp only [Option.bind_eq_bind] at hrun
      exact hrun)
  obtain ⟨out, hrun, hdata⟩ := key
  have hout : out = String.mk (renderCells g w (h * w)) := by
    rw [← hdata]
  simp only [Option.bind_eq_bind, pure] at hrun
  simp only [Grid.Print, Grid.Height_of_rect hr, Option.bind_eq_bind, pure, hrun,
    Option.some_bind, hout]

theorem renderCells_length (g : Grid) (w n : Nat) : (renderCells g w n).length = n := by
  simp [renderCells]

theorem renderCells_getElem? (g : Grid) (w n i : Nat) (hi : i < n) :
    (renderCells g w n)[i]? = some (cellChar (g.cell (i % w) (i / w))) := by
  simp [renderCells, List.getElem?_range hi]

theorem cellChar_eq_one (b : Bool) : cellChar b = '1' ↔ b = true := by
  cases b <;> simp [cellChar]

/-! ## Equality of rectangular grids -/

theorem Grid.cell_eq_getElem {g : Grid} {x y : Nat} (hy : y < g.length)
    (hx : x < (g[y]).length) : g.cell x y = (g[y])[x] := by
  simp [Grid.cell, List.getElem?_eq_getElem hy, List.getElem?_eq_getElem hx]

/-- Two rectangular grids of the same dimensions with the same cells are equal. -/
theorem Grid.ext_of_rect {g g' : Grid} {w h : Nat} (hr : g.Rect w h) (hr' : g'.Rect w h)
    (hcell : ∀ x y : Nat, x < w → y < h → g.cell x y = g'.cell x y) : g = g' := by
  apply List.ext_getElem (by rw [hr.1, hr'.1])
  intro y hy hy'
  have hyh : y < h := by rw [← hr.1]; exact hy
  have hl : (g[y]).length = w := hr.2 _ (List.getElem_mem hy)
  have hl' : (g'[y]).length = w := hr'.2 _ (List.getElem_mem hy')
  apply List.ext_getElem (by rw [hl, hl'])
  intro x hx hx'
  have hxw : x < w := by rw [← hl]; exact hx
  rw [← Grid.cell_eq_getElem hy hx, ← Grid.cell_eq_getElem hy' hx']
  exact hcell x y hxw hyh

theorem Grid.eq_replicate_of_dead {g : Grid} {w h : Nat} (hr : g.Rect w h)
    (hcell : ∀ x y : Nat, x < w → y < h → g.cell x y = false) :
    g = List.replicate h (List.replicate w false) :=
  Grid.ext_of_rect hr (rect_replicate w h) (fun x y hx hy => by
    rw [hcell x y hx hy, cell_replicate])

/-! ## Grids whose rows are at least as long as the first -/

theorem Grid.Wide.pos {g : Grid} {w h : Nat} (hw : g.Wide w h) : 0 < h := by
  obtain ⟨hl, h0, _⟩ := hw
  cases g with
  | nil => simp at h0
  | cons row rest => simp at hl; omega

theorem Grid.Rect.wide {g : Grid} {w h : Nat} (hr : g.Rect w h) (hh : 0 < h) :
    g.Wide w h := by
  refine ⟨hr.1, ?_, fun row hrow => le_of_eq (hr.2 row hrow).symm⟩
  rw [hr.getElem? hh]
  simp [hr.row_length hh]

theorem Grid.Width_of_wide {g : Grid} {w h : Nat} (hw : g.Wide w h) :
    g.Width = some (w : Int) := by
  obtain ⟨_, h0, _⟩ := hw
  cases g with
  | nil => simp at h0
  | cons row rest =>
    simp only [List.getElem?_cons_zero, Option.map_some', Option.some.injEq] at h0
    simp [Grid.Width, sliceIndex, h0]

theorem Grid.Height_of_wide {g : Grid} {w h : Nat} (hw : g.Wide w h) :
    g.Height = (h : Int) := by
  simp [Grid.Height, hw.1]

/-- On a grid whose rows are at least as long as the first, `Alive` returns at every
integer position: the stored cell inside `[0, w) x [0, h)`, `false` outside. -/
theorem Grid.Alive_of_wide {g : Grid} {w h : Nat} (hw : g.Wide w h) (x y : Int) :
    g.Alive x y = some (g.state w h x y) := by
  unfold Grid.Alive Grid.state
  by_cases hneg : x < 0 ∨ y < 0
  · rw [if_pos hneg, if_neg (by omega)]
  · rw [if_neg hneg, Grid.Width_of_wide hw, Grid.Height_of_wide hw]
    simp only
    by_cases hout : x ≥ (w : Int) ∨ y ≥ (h : Int)
    · rw [if_pos hout, if_neg (by omega)]
    · rw [if_neg hout, if_pos (by omega)]
      have hy : y.toNat < g.length := by have := hw.1; omega
      have hlen : w ≤ (g[y.toNat]).length := hw.2.2 _ (List.getElem_mem hy)
      have hx : x.toNat < (g[y.toNat]).length := by omega
      rw [sliceIndex_of_nonneg g y (by omega), List.getElem?_eq_getElem hy]
      simp only
      rw [sliceIndex_of_nonneg _ x (by omega), List.getElem?_eq_getElem hx,
        Grid.cell_eq_getElem hy hx]

/-! ## Rules wherever `Alive` is total -/

theorem Grid.DiagonalLiveNeighbours_of_alive {g : Grid} {w h : Nat}
    (hA : ∀ x y : Int, g.Alive x y = some (g.state w h x y)) (x y : Int) :
    g.DiagonalLiveNeighbours x y =
      some (toCount (g.state w h (x - 1) (y - 1)) + toCount (g.state w h (x + 1) (y + 1))
        + toCount (g.state w h (x + 1) (y - 1)) + toCount (g.state w h (x - 1) (y + 1))) := by
  simp only [Grid.DiagonalLiveNeighbours, hA, bind_pure_comp,
    Option.map_eq_map, Option.map_some', Option.bind_eq_bind, Option.some_bind, pure,
    Option.some.injEq]
  simp only [incrIf, toCount]
  split_ifs <;> rfl

theorem Grid.HorizontalAndVerticalLiveNeighbours_of_alive {g : Grid} {w h : Nat}
    (hA : ∀ x y : Int, g.Alive x y = some (g.state w h x y)) (x y : Int) :
    g.HorizontalAndVerticalLiveNeighbours x y =
      some (toCount (g.state w h (x - 1) y) + toCount (g.state w h (x + 1) y)
        + toCount (g.state w h x (y - 1)) + toCount (g.state w h x (y + 1))) := by
  simp only [Grid.HorizontalAndVerticalLiveNeighbours, hA,
    bind_pure_comp, Option.map_eq_map, Option.map_some', Option.bind_eq_bind,
    Option.some_bind, pure, Option.some.injEq]
  simp only [incrIf, toCount]
  split_ifs <;> rfl

theorem Grid.LiveNeighbours_of_alive {g : Grid} {w h : Nat}
    (hA : ∀ x y : Int, g.Alive x y = some (g.state w h x y)) (x y : Int) :
    g.LiveNeighbours x y =
      some ((toCount (g.state w h (x - 1) (y - 1)) + toCount (g.state w h (x + 1) (y + 1))
        + toCount (g.state w h (x + 1) (y - 1)) + toCount (g.state w h (x - 1) (y + 1)))
        + (toCount (g.state w h (x - 1) y) + toCount (g.state w h (x + 1) y)
        + toCount (g.state w h x (y - 1)) + toCount (g.state w h x (y + 1)))) := by
  simp [Grid.LiveNeighbours, Grid.DiagonalLiveNeighbours_of_alive hA,
    Grid.HorizontalAndVerticalLiveNeighbours_of_alive hA]

theorem Rules.Apply_isSome_of_alive {g : Grid} {w h : Nat}
    (hA : ∀ x y : Int, g.Alive x y = some (g.state w h x y)) (rules : Rules)
    (hrules : rules = Rules.Life g ∨ rules = Rules.Infection g) (x y : Int) :
    ∃ v, rules.Apply x y = some v := by
  rcases hrules with rfl | rfl
  · simp only [Rules.Apply, Life.Apply, Grid.LiveNeighbours_of_alive hA, hA,
      Option.bind_eq_bind, Option.some_bind, pure]
    split_ifs <;> exact ⟨_, rfl⟩
  · simp only [Rules.Apply, Infection.Apply, Grid.DiagonalLiveNeighbours_of_alive hA,
      Grid.HorizontalAndVerticalLiveNeighbours_of_alive hA, hA,
      Option.bind_eq_bind, Option.some_bind, pure]
    split_ifs <;> exact ⟨_, rfl⟩

theorem Game.currentRules_cases (g : Game) :
    g.currentRules = Rules.Life g.Grid ∨ g.currentRules = Rules.Infection g.Grid := by
  unfold Game.currentRules
  split_ifs
  · exact Or.inl rfl
  · exact Or.inr rfl

/-- One step on a grid whose rows are at least as long as the first: `TimeStep` returns,
the new grid is rectangular with the width and height of the old one, each of its cells
holds what the active rules return for that cell on the old grid, and only the grid and
the generation counter change. -/
theorem Game.TimeStep_of_wide {g : Game} {w h : Nat} (hw : g.Grid.Wide w h) :
    ∃ next : InfectedLife.Grid,
      g.TimeStep = some { g with Grid := next, currentGeneration := g.currentGeneration + 1 } ∧
      next.Rect w h ∧
      ∀ x y : Nat, x < w → y < h →
        g.currentRules.Apply (x : Int) (y : Int) = some (next.cell x y) := by
  have hA := Grid.Alive_of_wide hw
  have hsome : ∀ x y : Int, g.currentRules.Apply x y =
      some ((g.currentRules.Apply x y).getD false) := by
    intro x y
    obtain ⟨v, hv⟩ := Rules.Apply_isSome_of_alive hA g.currentRules g.currentRules_cases x y
    rw [hv]; rfl
  obtain ⟨st, hst, hrect, hcell⟩ :=
    gridLoop_of_rect g.currentRules
      (fun x y => (g.currentRules.Apply (x : Int) (y : Int)).getD false)
      (fun x y => hsome x y)
      (List.replicate h (List.replicate w false)) (rect_replicate w h)
  refine ⟨st, ?_, hrect, ?_⟩
  · simp only [Option.bind_eq_bind] at hst
    simp only [Game.TimeStep, Grid.Width_of_wide hw, Grid.Height_of_wide hw,
      NewGrid_natCast w h hw.pos, Option.bind_eq_bind, Option.some_bind, hst, pure]
  · intro x y hx hy
    rw [hcell x y hx hy]
    exact hsome x y

/-! ## Writing a list of cells -/

/-- Folding `Set` over a list of in-bounds positions of a rectangular grid returns a grid of
the same shape in which every listed position holds its value and every other cell is
unchanged; the order of the list does not matter. -/
theorem foldSet_of_rect {ι : Type} (l : List ι) (f : Grid → ι → Option Grid)
    (pos : ι → Nat × Nat) (v : Nat → Nat → Bool) {w h : Nat}
    (hf : ∀ i ∈ l, ∀ g : Grid,
      f g i = g.Set ((pos i).1 : Int) ((pos i).2 : Int) (v (pos i).1 (pos i).2))
    (hin : ∀ i ∈ l, (pos i).1 < w ∧ (pos i).2 < h) (g : Grid) (hg : g.Rect w h) :
    ∃ g' : Grid, l.foldlM f g = some g' ∧ g'.Rect w h ∧
      ∀ x y : Nat, g'.cell x y = if (x, y) ∈ l.map pos then v x y else g.cell x y := by
  induction l generalizing g with
  | nil => exact ⟨g, rfl, hg, by intro x y; simp⟩
  | cons i rest ih =>
    have hi := hin i (List.mem_cons_self _ _)
    have hset := Grid.Set_of_rect hg hi.1 hi.2 (v (pos i).1 (pos i).2)
    have hg1 := hg.set (x := (pos i).1) hi.2 (v (pos i).1 (pos i).2)
    obtain ⟨g', hfold, hrect, hcell⟩ :=
      ih (fun j hj => hf j (List.mem_cons_of_mem _ hj))
        (fun j hj => hin j (List.mem_cons_of_mem _ hj)) _ hg1
    refine ⟨g', ?_, hrect, ?_⟩
    · rw [List.foldlM_cons, hf i (List.mem_cons_self _ _) g, hset]
      exact hfold
    · intro x y
      rw [hcell x y, Grid.cell_set hg hi.1 hi.2]
      by_cases hmem : (x, y) ∈ rest.map pos
      · have : (x, y) ∈ (i :: rest).map pos := by
          rw [List.map_cons]; exact List.mem_cons_of_mem _ hmem
        rw [if_pos hmem, if_pos this]
      · rw [if_neg hmem]
        by_cases heq : x = (pos i).1 ∧ y = (pos i).2
        · have : (x, y) ∈ (i :: rest).map pos := by
            rw [List.map_cons, heq.1, heq.2]; exact List.mem_cons_self _ _
          rw [if_pos heq, if_pos this, heq.1, heq.2]
        · have : ¬ (x, y) ∈ (i :: rest).map pos := by
            rw [List.map_cons, List.mem_cons]
            rintro (h1 | h1)
            · exact heq ⟨congrArg Prod.fst h1, congrArg Prod.snd h1⟩
            · exact hmem h1
          rw [if_neg heq, if_neg this]

theorem mem_cellCoordinates (w h : Nat) (p : Nat × Nat) :
    p ∈ cellCoordinates w h ↔ p.1 < w ∧ p.2 < h := by
  obtain ⟨x, y⟩ := p
  simp only [cellCoordinates, List.mem_flatMap, List.mem_range, List.mem_map, Prod.mk.injEq]
  constructor
  · rintro ⟨b, hb, a, ha, rfl, rfl⟩
    exact ⟨ha, hb⟩
  · rintro ⟨hx, hy⟩
    exact ⟨y, hy, x, hx, rfl, rfl⟩

/-- Visiting the cells of a game with a rectangular grid in any order that covers exactly
the cell coordinates gives the grid of `TimeStep`. -/
theorem Game.nextGridInOrder_of_rect {g : Game} {w h : Nat} (hr : g.Grid.Rect w h)
    (hh : 0 < h) (order : List (Nat × Nat))
    (hcover : ∀ p : Nat × Nat, p ∈ order ↔ p.1 < w ∧ p.2 < h) :
    ∃ next : InfectedLife.Grid, g.nextGridInOrder order = some next ∧
      g.TimeStep = some { g with Grid := next,
                                 currentGeneration := g.currentGeneration + 1 } := by
  obtain ⟨next, hstep, hrn, hcell⟩ := Game.TimeStep_of_rect hr hh
  obtain ⟨g', hfold, hrect, hcell'⟩ :=
    foldSet_of_rect order
      (fun nx p => do
        let v ← g.currentRules.Apply (Int.ofNat p.1) (Int.ofNat p.2)
        nx.Set (Int.ofNat p.1) (Int.ofNat p.2) v)
      id (fun x y => next.cell x y)
      (by
        intro p hp nx
        have hp' := (hcover p).mp hp
        have := hcell p.1 p.2 hp'.1 hp'.2
        simp only [Int.ofNat_eq_coe, this, Option.bind_eq_bind, Option.some_bind, id])
      (fun p hp => (hcover p).mp hp)
      (List.replicate h (List.replicate w false)) (rect_replicate w h)
  have heq : g' = next := by
    apply Grid.ext_of_rect hrect hrn
    intro x y hx hy
    rw [hcell' x y, if_pos]
    simpa using (hcover (x, y)).mpr ⟨hx, hy⟩
  refine ⟨next, ?_, hstep⟩
  simp only [Option.bind_eq_bind] at hfold
  simp only [Game.nextGridInOrder, Grid.Width_of_rect hr hh, Grid.Height_of_rect hr,
    NewGrid_natCast w h hh, Option.bind_eq_bind, Option.some_bind, hfold, heq]

/-! ## The all-dead grid -/

theorem state_replicate (w h : Nat) (x y : Int) :
    Grid.state (List.replicate h (List.replicate w false)) w h x y = false := by
  unfold Grid.state
  split_ifs
  · exact cell_replicate w h _ _
  · rfl

/-- Both rule sets leave every cell of the all-dead grid dead. -/
theorem Rules.Apply_replicate (w h : Nat) (hh : 0 < h) (rules : Rules)
    (hrules : rules = Rules.Life (List.replicate h (List.replicate w false)) ∨
      rules = Rules.Infection (List.replicate h (List.replicate w false))) (x y : Int) :
    rules.Apply x y = some false := by
  have hA := Grid.Alive_of_wide ((rect_replicate w h).wide hh)
  rcases hrules with rfl | rfl
  · simp [Rules.Apply, Life.Apply, Grid.LiveNeighbours_of_alive hA, state_replicate, toCount]
  · simp [Rules.Apply, Infection.Apply, Grid.DiagonalLiveNeighbours_of_alive hA,
      Grid.HorizontalAndVerticalLiveNeighbours_of_alive hA, hA, state_replicate, toCount]

theorem Game.TimeStep_replicate (w h : Nat) (hh : 0 < h) (ia mg cg : Int) :
    Game.TimeStep ⟨List.replicate h (List.replicate w false), ia, mg, cg⟩ =
      some ⟨List.replicate h (List.replicate w false), ia, mg, cg + 1⟩ := by
  obtain ⟨next, hstep, hrn, hcell⟩ :=
    Game.TimeStep_of_rect
      (g := ⟨List.replicate h (List.replicate w false), ia, mg, cg⟩) (rect_replicate w h) hh
  have hnext : next = List.replicate h (List.replicate w false) := by
    apply Grid.eq_replicate_of_dead hrn
    intro x y hx hy
    have h1 := hcell x y hx hy
    rw [Rules.Apply_replicate w h hh _ (Game.currentRules_cases _)] at h1
    exact (Option.some.inj h1).symm
  rw [hstep, hnext]

theorem Game.steps_replicate (w h : Nat) (hh : 0 < h) (ia mg cg : Int) (k : Nat) :
    Game.steps k ⟨List.replicate h (List.replicate w false), ia, mg, cg⟩ =
      some ⟨List.replicate h (List.replicate w false), ia, mg, cg + (k : Int)⟩ := by
  induction k with
  | zero => simp [Game.steps]
  | succ k ih =>
    rw [Game.steps_succ, ih, Option.some_bind, Game.TimeStep_replicate w h hh]
    simp [add_assoc]

/-! ## Bounds of the neighbour counts -/

theorem incrIf_bounds (a b c d : Bool) :
    0 ≤ incrIf d (incrIf c (incrIf b (incrIf a 0))) ∧
      incrIf d (incrIf c (incrIf b (incrIf a 0))) ≤ 4 := by
  cases a <;> cases b <;> cases c <;> cases d <;> decide

theorem Grid.DiagonalLiveNeighbours_bounds {g : Grid} {x y : Int} {d : Int}
    (hd : g.DiagonalLiveNeighbours x y = some d) : 0 ≤ d ∧ d ≤ 4 := by
  simp only [Grid.DiagonalLiveNeighbours, Option.bind_eq_bind, Option.bind_eq_some, pure,
    Option.some.injEq] at hd
  obtain ⟨a, _, b, _, c, _, e, _, rfl⟩ := hd
  exact incrIf_bounds a b c e

theorem Grid.HorizontalAndVerticalLiveNeighbours_bounds {g : Grid} {x y : Int} {o : Int}
    (ho : g.HorizontalAndVerticalLiveNeighbours x y = some o) : 0 ≤ o ∧ o ≤ 4 := by
  simp only [Grid.HorizontalAndVerticalLiveNeighbours, Option.bind_eq_bind,
    Option.bind_eq_some, pure, Option.some.injEq] at ho
  obtain ⟨a, _, b, _, c, _, e, _, rfl⟩ := ho
  exact incrIf_bounds a b c e

theorem Grid.LiveNeighbours_eq_some {g : Grid} {x y : Int} {n : Int} :
    g.LiveNeighbours x y = some n ↔
      ∃ d o : Int, g.DiagonalLiveNeighbours x y = some d ∧
        g.HorizontalAndVerticalLiveNeighbours x y = some o ∧ n = d + o := by
  simp only [Grid.LiveNeighbours, Option.bind_eq_bind, Option.bind_eq_some, pure,
    Option.some.injEq]
  constructor
  · rintro ⟨d, hd, o, ho, rfl⟩
    exact ⟨d, o, hd, ho, rfl⟩
  · rintro ⟨d, o, hd, ho, rfl⟩
    exact ⟨d, hd, o, ho, rfl⟩

/-! ## A single live cell -/

theorem toCount_state_le {g : Grid} {x0 y0 : Nat} (hone : g.onlyLiveCell x0 y0)
    (w h : Nat) (x y : Int) :
    0 ≤ toCount (g.state w h x y) ∧
      toCount (g.state w h x y) ≤ (if x = (x0 : Int) ∧ y = (y0 : Int) then 1 else 0) := by
  unfold Grid.state toCount
  by_cases hin : 0 ≤ x ∧ x < (w : Int) ∧ 0 ≤ y ∧ y < (h : Int)
  · rw [if_pos hin]
    by_cases hc : g.cell x.toNat y.toNat = true
    · have := (hone _ _).mp hc
      rw [if_pos hc, if_pos (by omega)]
      omega
    · rw [if_neg hc]
      split_ifs <;> omega
  · rw [if_neg hin]
    simp only [Bool.false_eq_true, if_false]
    split_ifs <;> omega

/-- With a single live cell on the grid every position has at most one live neighbour, so
the Life rules return dead everywhere. -/
theorem Life_Apply_of_onlyLiveCell {g : Grid} {w h : Nat} (hw : g.Wide w h) {x0 y0 : Nat}
    (hone : g.onlyLiveCell x0 y0) (x y : Int) : Life.Apply g x y = some false := by
  have hA := Grid.Alive_of_wide hw
  have hn := Grid.LiveNeighbours_of_alive hA x y
  have h1 := toCount_state_le hone w h (x - 1) (y - 1)
  have h2 := toCount_state_le hone w h (x + 1) (y + 1)
  have h3 := toCount_state_le hone w h (x + 1) (y - 1)
  have h4 := toCount_state_le hone w h (x - 1) (y + 1)
  have h5 := toCount_state_le hone w h (x - 1) y
  have h6 := toCount_state_le hone w h (x + 1) y
  have h7 := toCount_state_le hone w h x (y - 1)
  have h8 := toCount_state_le hone w h x (y + 1)
  have hsum : (toCount (g.state w h (x - 1) (y - 1)) + toCount (g.state w h (x + 1) (y + 1))
        + toCount (g.state w h (x + 1) (y - 1)) + toCount (g.state w h (x - 1) (y + 1)))
        + (toCount (g.state w h (x - 1) y) + toCount (g.state w h (x + 1) y)
        + toCount (g.state w h x (y - 1)) + toCount (g.state w h x (y + 1))) ≤ 1 := by
    split_ifs at h1 h2 h3 h4 h5 h6 h7 h8 <;> omega
  rw [Life.Apply, hn]
  simp only [Option.bind_eq_bind, Option.some_bind]
  rw [if_neg (by omega), if_neg (by omega)]
  rfl

theorem Game.TimeStep_of_onlyLiveCell {g : Game} {w h : Nat} (hw : g.Grid.Wide w h)
    {x0 y0 : Nat} (hone : g.Grid.onlyLiveCell x0 y0)
    (hlife : g.currentGeneration ≤ g.InfectAfter) :
    g.TimeStep = some { g with Grid := List.replicate h (List.replicate w false),
                               currentGeneration := g.currentGeneration + 1 } := by
  obtain ⟨next, hstep, hrn, hcell⟩ := Game.TimeStep_of_wide hw
  have hnext : next = List.replicate h (List.replicate w false) := by
    apply Grid.eq_replicate_of_dead hrn
    intro x y hx hy
    have h1 := hcell x y hx hy
    rw [Game.currentRules, if_pos hlife, Rules.Apply,
      Life_Apply_of_onlyLiveCell hw hone] at h1
    exact (Option.some.inj h1).symm
  rw [hstep, hnext]

/-! ## The seed decoder -/

theorem parseSeedBody_natCast {w : Nat} (hw : 0 < w) (g : Grid) (i : Nat) (tok : String) :
    parseSeedBody (w : Int) g (i, tok) =
      g.Set ((i % w : Nat) : Int) ((i / w : Nat) : Int) (decide (tok = "1")) := by
  unfold parseSeedBody
  rw [if_neg (by omega)]
  rfl

theorem index_of_div_mod (w i : Nat) : i / w * w + i % w = i := by
  rw [Nat.mul_comm]; exact Nat.div_add_mod i w

/-- Decoding at most `w * h` tokens into a rectangular grid returns a grid of the same
shape in which the cell of column `x` in row `y` holds whether the token of index
`y * w + x` exists and is exactly "1". -/
theorem foldTokens_of_le {w h : Nat} (hw : 0 < w) (tokens : List String)
    (hlen : tokens.length ≤ w * h) (g : Grid) (hg : g.Rect w h)
    (hdead : ∀ x y : Nat, g.cell x y = false) :
    ∃ g' : Grid, tokens.enum.foldlM (parseSeedBody (w : Int)) g = some g' ∧ g'.Rect w h ∧
      ∀ x y : Nat, x < w → y < h →
        g'.cell x y = decide (tokens[y * w + x]? = some "1") := by
  obtain ⟨g', hfold, hrect, hcell⟩ :=
    foldSet_of_rect tokens.enum (parseSeedBody (w : Int))
      (fun iv => (iv.1 % w, iv.1 / w))
      (fun x y => decide (tokens[y * w + x]? = some "1"))
      (by
        rintro ⟨i, tok⟩ hmem g1
        have htok : tokens[i]? = some tok := List.mk_mem_enum_iff_getElem?.mp hmem
        rw [parseSeedBody_natCast hw]
        simp only [index_of_div_mod, htok, Option.some.injEq])
      (by
        rintro ⟨i, tok⟩ hmem
        have htok : tokens[i]? = some tok := List.mk_mem_enum_iff_getElem?.mp hmem
        have hi : i < tokens.length := by
          by_contra hc
          rw [List.getElem?_eq_none (by omega)] at htok
          cases htok
        refine ⟨Nat.mod_lt _ hw, ?_⟩
        show i / w < h
        rw [Nat.div_lt_iff_lt_mul hw, Nat.mul_comm]
        omega)
      g hg
  refine ⟨g', hfold, hrect, ?_⟩
  intro x y hx hy
  rw [hcell x y]
  split_ifs with hmem
  · rfl
  · rw [hdead]
    by_cases hi : y * w + x < tokens.length
    · exfalso
      apply hmem
      rw [List.mem_map]
      refine ⟨(y * w + x, tokens[y * w + x]), ?_, ?_⟩
      · exact List.mk_mem_enum_iff_getElem?.mpr (List.getElem?_eq_getElem hi)
      · simp only [index_mod_width y hx, index_div_width y hx]
    · rw [List.getElem?_eq_none (by omega)]
      simp

theorem parseSeed_of_le {w h : Nat} (hw : 0 < w) (hh : 0 < h) (seed : String)
    (hlen : (stringsSplit seed).length ≤ w * h) :
    ∃ g : Grid, parseSeed (w : Int) (h : Int) seed = some g ∧ g.Rect w h ∧
      ∀ x y : Nat, x < w → y < h →
        g.cell x y = decide ((stringsSplit seed)[y * w + x]? = some "1") := by
  obtain ⟨g, hfold, hrect, hcell⟩ :=
    foldTokens_of_le hw (stringsSplit seed) hlen _ (rect_replicate w h)
      (fun x y => cell_replicate w h x y)
  refine ⟨g, ?_, hrect, hcell⟩
  simp only [parseSeed, NewGrid_natCast w h hh, Option.bind_eq_bind, Option.some_bind, hfold]

/-- Decoding more than `w * h` tokens fails at the token of index `w * h`: the grid built
from the tokens before it is returned by the loop so far, and the write for this token is
`Set(0, h, _)`, out of range. -/
theorem parseSeed_of_gt {w h : Nat} (hw : 0 < w) (hh : 0 < h) (seed : String)
    (hlen : w * h < (stringsSplit seed).length) :
    parseSeed (w : Int) (h : Int) seed = none ∧
    ∃ (g1 : Grid) (tok : String) (rest : List (Nat × String)),
      (stringsSplit seed).enum =
        ((stringsSplit seed).take (w * h)).enum ++ (w * h, tok) :: rest ∧
      ((stringsSplit seed).take (w * h)).enum.foldlM (parseSeedBody (w : Int))
        (List.replicate h (List.replicate w false)) = some g1 ∧
      parseSeedBody (w : Int) g1 (w * h, tok) = g1.Set 0 (h : Int) (decide (tok = "1")) ∧
      g1.Set 0 (h : Int) (decide (tok = "1")) = none := by
  have htake : ((stringsSplit seed).take (w * h)).length = w * h := by
    rw [List.length_take]; omega
  obtain ⟨g1, hfold, hrect, _⟩ :=
    foldTokens_of_le hw ((stringsSplit seed).take (w * h)) (by omega) _ (rect_replicate w h)
      (fun x y => cell_replicate w h x y)
  have hdrop : ∃ tok rest', (stringsSplit seed).drop (w * h) = tok :: rest' := by
    cases hd : (stringsSplit seed).drop (w * h) with
    | nil =>
      have := congrArg List.length hd
      rw [List.length_drop] at this
      simp at this
      omega
    | cons tok rest' => exact ⟨tok, rest', rfl⟩
  obtain ⟨tok, rest', hd⟩ := hdrop
  have hsplit : (stringsSplit seed).enum =
      ((stringsSplit seed).take (w * h)).enum ++ (w * h, tok) :: rest'.enumFrom (w * h + 1) := by
    conv_lhs => rw [← List.take_append_drop (w * h) (stringsSplit seed)]
    rw [List.enum_append, htake, hd, List.enumFrom_cons]
  have hbody : parseSeedBody (w : Int) g1 (w * h, tok) =
      g1.Set 0 (h : Int) (decide (tok = "1")) := by
    rw [parseSeedBody_natCast hw, Nat.mul_mod_right, Nat.mul_div_cancel_left h hw]
    rfl
  have hset : g1.Set 0 (h : Int) (decide (tok = "1")) = none := by
    have hidx : sliceIndex g1 (h : Int) = none := by
      rw [sliceIndex_natCast, List.getElem?_eq_none (by rw [hrect.1])]
    simp [Grid.Set, hidx]
  refine ⟨?_, g1, tok, _, hsplit, hfold, hbody, hset⟩
  simp only [parseSeed, NewGrid_natCast w h hh, Option.bind_eq_bind, Option.some_bind, hsplit,
    List.foldlM_append, hfold, List.foldlM_cons, hbody, hset, Option.none_bind]

/-! ## Splitting a seed at its spaces -/

theorem splitChars_ne_nil (cs : List Char) : splitChars cs ≠ [] := by
  cases cs with
  | nil => simp [splitChars]
  | cons c cs =>
    unfold splitChars
    split_ifs
    · simp
    · split <;> simp

theorem splitChars_token (t : List Char) (ht : ' ' ∉ t) : splitChars t = [t] := by
  induction t with
  | nil => rfl
  | cons c cs ih =>
    have hc : c ≠ ' ' := fun hc => ht (by rw [hc]; exact List.mem_cons_self _ _)
    have hcs : ' ' ∉ cs := fun hmem => ht (List.mem_cons_of_mem _ hmem)
    rw [splitChars, if_neg hc, ih hcs]

theorem splitChars_token_space (t rest : List Char) (ht : ' ' ∉ t) :
    splitChars (t ++ ' ' :: rest) = t :: splitChars rest := by
  induction t with
  | nil => simp [splitChars]
  | cons c cs ih =>
    have hc : c ≠ ' ' := fun hc => ht (by rw [hc]; exact List.mem_cons_self _ _)
    have hcs : ' ' ∉ cs := fun hmem => ht (List.mem_cons_of_mem _ hmem)
    rw [List.cons_append, splitChars, if_neg hc, ih hcs]

/-- The characters of tokens joined by single spaces. -/
theorem splitChars_joined (a : List Char) (as : List (List Char))
    (ha : ' ' ∉ a) (has : ∀ t ∈ as, ' ' ∉ t) :
    splitChars (a ++ as.flatMap (fun t => ' ' :: t)) = a :: as := by
  induction as generalizing a with
  | nil => simpa using splitChars_token a ha
  | cons b bs ih =>
    rw [List.flatMap_cons, List.cons_append, splitChars_token_space a _ ha,
      ih b (has b (List.mem_cons_self _ _)) (fun t ht => has t (List.mem_cons_of_mem _ ht))]

theorem intercalate_go_data (acc : String) (l : List String) :
    (String.intercalate.go acc " " l).data =
      acc.data ++ (l.map String.data).flatMap (fun t => ' ' :: t) := by
  induction l generalizing acc with
  | nil => simp [String.intercalate.go]
  | cons a as ih =>
    rw [String.intercalate.go, ih]
    simp [String.data_append]

theorem intercalate_data (a : String) (as : List String) :
    (String.intercalate " " (a :: as)).data =
      a.data ++ (as.map String.data).flatMap (fun t => ' ' :: t) := by
  rw [String.intercalate, intercalate_go_data]

/-- Splitting tokens joined by single spaces gives the tokens back. -/
theorem stringsSplit_intercalate (tokens : List String) (hne : tokens ≠ [])
    (hsp : ∀ t ∈ tokens, ' ' ∉ t.toList) :
    stringsSplit (String.intercalate " " tokens) = tokens := by
  cases tokens with
  | nil => exact absurd rfl hne
  | cons a as =>
    have h1 : splitChars (String.intercalate " " (a :: as)).toList =
        a.data :: as.map String.data := by
      show splitChars (String.intercalate " " (a :: as)).data = _
      rw [intercalate_data]
      apply splitChars_joined
      · exact hsp a (List.mem_cons_self _ _)
      · intro t ht
        obtain ⟨s, hs, rfl⟩ := List.mem_map.mp ht
        exact hsp s (List.mem_cons_of_mem _ hs)
    rw [stringsSplit, h1]
    have hid : ∀ l : List String, l.map (String.mk ∘ String.data) = l := by
      intro l
      induction l with
      | nil => rfl
      | cons t ts ih => rw [List.map_cons, ih]; rfl
    simp [hid]

theorem filter_joined (a : List Char) (as : List (List Char))
    (ha : ' ' ∉ a) (has : ∀ t ∈ as, ' ' ∉ t) :
    (a ++ as.flatMap (fun t => ' ' :: t)).filter (fun c => decide (c ≠ ' ')) =
      (a :: as).flatMap id := by
  have hkeep : ∀ t : List Char, ' ' ∉ t → t.filter (fun c => decide (c ≠ ' ')) = t := by
    intro t ht
    apply List.filter_eq_self.mpr
    intro c hc
    have : c ≠ ' ' := fun h => ht (h ▸ hc)
    simpa using this
  induction as generalizing a with
  | nil => simpa using hkeep a ha
  | cons b bs ih =>
    have hb := has b (List.mem_cons_self _ _)
    have := ih b hb (fun t ht => has t (List.mem_cons_of_mem _ ht))
    rw [List.flatMap_cons, List.filter_append, hkeep a ha, List.cons_append,
      List.filter_cons]
    simp only [ne_eq, not_true_eq_false, decide_False, Bool.false_eq_true, if_false]
    rw [this]
    simp

/-- The seed with its spaces removed, for binary tokens, is the rendering of the tokens. -/
theorem filter_intercalate (tokens : List String) (hne : tokens ≠ [])
    (hbin : ∀ t ∈ tokens, t = "0" ∨ t = "1") :
    (String.intercalate " " tokens).toList.filter (fun c => decide (c ≠ ' ')) =
      tokens.map (fun t => cellChar (decide (t = "1"))) := by
  have hsp : ∀ t ∈ tokens, ' ' ∉ t.data := by
    intro t ht
    rcases hbin t ht with rfl | rfl <;> decide
  have hmap : ∀ l : List String, (∀ t ∈ l, t = "0" ∨ t = "1") →
      (l.map String.data).flatMap id = l.map (fun t => cellChar (decide (t = "1"))) := by
    intro l hl
    induction l with
    | nil => rfl
    | cons t ts ih =>
      rw [List.map_cons, List.flatMap_cons, List.map_cons,
        ih (fun s hs => hl s (List.mem_cons_of_mem _ hs))]
      rcases hl t (List.mem_cons_self _ _) with rfl | rfl <;> rfl
  cases tokens with
  | nil => exact absurd rfl hne
  | cons a as =>
    show (String.intercalate " " (a :: as)).data.filter _ = _
    rw [intercalate_data, filter_joined _ _ (hsp a (List.mem_cons_self _ _))
      (by
        intro t ht
        obtain ⟨s, hs, rfl⟩ := List.mem_map.mp ht
        exact hsp s (List.mem_cons_of_mem _ hs))]
    exact hmap (a :: as) hbin

theorem map_range_getElem? {α β : Type} (l : List α) (F : Option α → β) :
    (List.range l.length).map (fun i => F l[i]?) = l.map (fun a => F (some a)) := by
  apply List.ext_getElem?
  intro i
  by_cases hi : i < l.length
  · simp [List.getElem?_map, List.getElem?_range hi, List.getElem?_eq_getElem hi]
  · have hle : l.length ≤ i := Nat.le_of_not_lt hi
    simp [List.getElem?_map, List.getElem?_eq_none hle, hle]

/-! ## Set on a grid in memory -/

theorem MemGrid.Rect.row {g : MemGrid} {w h : Nat} (hr : g.Rect w h) {y : Nat}
    (hy : y < h) : ∃ row : RowSlice, g.rows[y]? = some row ∧ row.len = w := by
  have hy' : y < g.rows.length := by rw [hr.1]; exact hy
  exact ⟨g.rows[y], List.getElem?_eq_getElem hy', hr.2 _ (List.getElem_mem hy')⟩

theorem MemGrid.Width_of_memRect {g : MemGrid} {w h : Nat} (hr : g.Rect w h) (hh : 0 < h) :
    g.Width = some (w : Int) := by
  obtain ⟨row, hrow, hlen⟩ := hr.row hh
  have h0 : sliceIndex g.rows 0 = some row := by
    have := sliceIndex_natCast g.rows 0
    simp only [Nat.cast_zero] at this
    rw [this, hrow]
  rw [MemGrid.Width, h0]
  simp only
  rw [hlen]

/-- The address of an in-bounds cell of a rectangular grid. -/
theorem MemGrid.cellAddress_of_memRect {g : MemGrid} {w h : Nat} (hr : g.Rect w h)
    {x y : Int} (hx0 : 0 ≤ x) (hxw : x < (w : Int)) (hy0 : 0 ≤ y) (hyh : y < (h : Int)) :
    ∃ row : RowSlice, g.rows[y.toNat]? = some row ∧ row.len = w ∧
      sliceIndex g.rows y = some row ∧ row.index x = some (row.base + x.toNat) ∧
      g.cellAddress x y = some (row.base + x.toNat) := by
  obtain ⟨row, hrow, hlen⟩ := hr.row (y := y.toNat) (by omega)
  have hs : sliceIndex g.rows y = some row := by
    rw [sliceIndex_of_nonneg g.rows y hy0, hrow]
  have hi : row.index x = some (row.base + x.toNat) := by
    unfold RowSlice.index
    rw [if_neg (by omega)]
  refine ⟨row, hrow, hlen, hs, hi, ?_⟩
  rw [MemGrid.cellAddress, hs]
  exact hi

/-- On a rectangular grid in memory with at least one row `Alive` reads the cell at the
address of the position inside the grid and returns `false` outside. -/
theorem MemGrid.Alive_of_memRect {g : MemGrid} {w h : Nat} (hr : g.Rect w h) (hh : 0 < h)
    (x y : Int) :
    g.Alive x y =
      if 0 ≤ x ∧ x < (w : Int) ∧ 0 ≤ y ∧ y < (h : Int)
      then (g.cellAddress x y).bind (fun addr => g.cells[addr]?) else some false := by
  unfold MemGrid.Alive
  by_cases hneg : x < 0 ∨ y < 0
  · rw [if_pos hneg, if_neg (by omega)]
  · rw [if_neg hneg, MemGrid.Width_of_memRect hr hh]
    simp only
    have hheight : g.Height = (h : Int) := by simp [MemGrid.Height, hr.1]
    rw [hheight]
    by_cases hout : x ≥ (w : Int) ∨ y ≥ (h : Int)
    · rw [if_pos hout, if_neg (by omega)]
    · rw [if_neg hout, if_pos (by omega)]
      obtain ⟨row, _, _, hs, hi, haddr⟩ :=
        MemGrid.cellAddress_of_memRect hr (x := x) (y := y) (by omega) (by omega) (by omega)
          (by omega)
      rw [hs, haddr]
      simp only
      rw [hi]
      rfl

/-- In a grid none of whose rows share a cell, two different in-bounds positions have
different addresses. -/
theorem MemGrid.cellAddress_ne_of_ownRows {g : MemGrid} {w h : Nat} (hr : g.Rect w h)
    (hown : g.OwnRows) {x y x' y' : Int}
    (hx0 : 0 ≤ x) (hxw : x < (w : Int)) (hy0 : 0 ≤ y) (hyh : y < (h : Int))
    (hx0' : 0 ≤ x') (hxw' : x' < (w : Int)) (hy0' : 0 ≤ y') (hyh' : y' < (h : Int))
    (hne : (x', y') ≠ (x, y)) : g.cellAddress x' y' ≠ g.cellAddress x y := by
  obtain ⟨row, hrow, hlen, _, _, haddr⟩ := MemGrid.cellAddress_of_memRect hr hx0 hxw hy0 hyh
  obtain ⟨row', hrow', hlen', _, _, haddr'⟩ :=
    MemGrid.cellAddress_of_memRect hr hx0' hxw' hy0' hyh'
  rw [haddr, haddr']
  intro heq
  have heq' : row'.base + x'.toNat = row.base + x.toNat := Option.some.inj heq
  by_cases hy : y'.toNat = y.toNat
  · rw [hy, hrow] at hrow'
    cases hrow'
    apply hne
    have e1 : x' = x := by omega
    have e2 : y' = y := by omega
    rw [e1, e2]
  · have hyl : y.toNat < g.rows.length := by rw [hr.1]; omega
    have hyl' : y'.toNat < g.rows.length := by rw [hr.1]; omega
    have hfin : (⟨y'.toNat, hyl'⟩ : Fin g.rows.length) ≠ ⟨y.toNat, hyl⟩ := by
      intro hc
      exact hy (Fin.mk.inj_iff.mp hc)
    have hdis := hown ⟨y'.toNat, hyl'⟩ ⟨y.toNat, hyl⟩ hfin
    have hg : g.rows.get ⟨y.toNat, hyl⟩ = row := by
      have := List.getElem?_eq_getElem hyl
      rw [hrow] at this
      exact (Option.some.inj this).symm
    have hg' : g.rows.get ⟨y'.toNat, hyl'⟩ = row' := by
      have := List.getElem?_eq_getElem hyl'
      rw [hrow'] at this
      exact (Option.some.inj this).symm
    rw [hg, hg'] at hdis
    omega

/-- The effect of an in-bounds `Set` on a rectangular grid in memory: it returns, the
written position reads back the written value, every other position whose cell is not the
written cell is unchanged, and the rows are the same. -/
theorem MemGrid.Set_of_memRect {g : MemGrid} {w h : Nat} (hr : g.Rect w h)
    (halloc : g.Allocated) {x y : Int} (a : Bool)
    (hx0 : 0 ≤ x) (hxw : x < (w : Int)) (hy0 : 0 ≤ y) (hyh : y < (h : Int)) :
    ∃ g' : MemGrid, g.Set x y a = some g' ∧ g'.rows = g.rows ∧ g'.Alive x y = some a ∧
      ∀ x' y' : Int, g.cellAddress x' y' ≠ g.cellAddress x y →
        g'.Alive x' y' = g.Alive x' y' := by
  have hh : 0 < h := by omega
  obtain ⟨row, hrow, hlen, hs, hi, haddr⟩ := MemGrid.cellAddress_of_memRect hr hx0 hxw hy0 hyh
  have hmem : row ∈ g.rows := List.getElem?_mem hrow
  have hlt : row.base + x.toNat < g.cells.length := by
    have := halloc row hmem
    omega
  have hr' : MemGrid.Rect { g with cells := g.cells.set (row.base + x.toNat) a } w h := hr
  have haddr' : ∀ x' y' : Int,
      MemGrid.cellAddress { g with cells := g.cells.set (row.base + x.toNat) a } x' y' =
        g.cellAddress x' y' := fun _ _ => rfl
  refine ⟨{ g with cells := g.cells.set (row.base + x.toNat) a }, ?_, rfl, ?_, ?_⟩
  · rw [MemGrid.Set, hs]
    simp only
    rw [hi]
    simp only
    rw [if_pos hlt]
  · rw [MemGrid.Alive_of_memRect hr' hh, if_pos ⟨hx0, hxw, hy0, hyh⟩, haddr', haddr]
    simp only [Option.some_bind]
    exact List.getElem?_set_self hlt
  · intro x' y' hne
    rw [MemGrid.Alive_of_memRect hr' hh, MemGrid.Alive_of_memRect hr hh, haddr']
    by_cases hin : 0 ≤ x' ∧ x' < (w : Int) ∧ 0 ≤ y' ∧ y' < (h : Int)
    · rw [if_pos hin, if_pos hin]
      obtain ⟨row', _, _, _, _, haddr2⟩ :=
        MemGrid.cellAddress_of_memRect hr hin.1 hin.2.1 hin.2.2.1 hin.2.2.2
      rw [haddr2, haddr] at hne
      rw [haddr2]
      simp only [Option.some_bind]
      apply List.getElem?_set_ne
      intro hc
      apply hne
      rw [hc]
    · rw [if_neg hin, if_neg hin]

/-! ## The claims -/

/-- C1: for every Game whose grid is rectangular with width >= 1 and height >= 1,
`TimeStep` returns and the cell (x, y) of the new grid equals what the active rule's
`Apply(x, y)` returns on the grid held before the step, for every 0 <= x < width and
0 <= y < height; the active rule is Life when currentGeneration <= InfectAfter and
Infection otherwise. -/
theorem C1_TimeStep_applies_active_rule (g : Game) (w h : Nat) (_hw : 1 ≤ w) (hh : 1 ≤ h)
    (hr : g.Grid.Rect w h) :
    ∃ g' : Game, g.TimeStep = some g' ∧
      ∀ x y : Int, 0 ≤ x → x < (w : Int) → 0 ≤ y → y < (h : Int) →
        ∃ b : Bool, g'.Grid.Alive x y = some b ∧
          (if g.currentGeneration ≤ g.InfectAfter then Life.Apply g.Grid x y
           else Infection.Apply g.Grid x y) = some b := by
  obtain ⟨next, hstep, hrn, hcell⟩ := Game.TimeStep_of_rect hr hh
  refine ⟨_, hstep, ?_⟩
  intro x y hx0 hxw hy0 hyh
  have hxn : x.toNat < w := by omega
  have hyn : y.toNat < h := by omega
  have hxe : ((x.toNat : Nat) : Int) = x := Int.toNat_of_nonneg hx0
  have hye : ((y.toNat : Nat) : Int) = y := Int.toNat_of_nonneg hy0
  refine ⟨next.cell x.toNat y.toNat, ?_, ?_⟩
  · have := Grid.Alive_natCast_of_rect hrn hxn hyn
    rwa [hxe, hye] at this
  · have := hcell x.toNat y.toNat hxn hyn
    rw [hxe, hye] at this
    rw [← this]
    unfold Game.currentRules
    split_ifs <;> rfl

/-- C1, at the vertical blinker on the 3 by 3 grid at generation 0. -/
theorem C1_TimeStep_applies_active_rule_witness :
    (1 ≤ 3 ∧ 1 ≤ 3 ∧
      Grid.Rect [[false, true, false], [false, true, false], [false, true, false]] 3 3) ∧
    ∃ g' : Game,
      Game.TimeStep ⟨[[false, true, false], [false, true, false], [false, true, false]],
        1, 2, 0⟩ = some g' ∧
      ∀ x y : Int, 0 ≤ x → x < ((3 : Nat) : Int) → 0 ≤ y → y < ((3 : Nat) : Int) →
        ∃ b : Bool, g'.Grid.Alive x y = some b ∧
          (if (0 : Int) ≤ 1 then
            Life.Apply [[false, true, false], [false, true, false], [false, true, false]] x y
           else
            Infection.Apply [[false, true, false], [false, true, false], [false, true, false]]
              x y) = some b :=
  ⟨⟨by decide, by decide, by decide⟩,
   C1_TimeStep_applies_active_rule
     ⟨[[false, true, false], [false, true, false], [false, true, false]], 1, 2, 0⟩ 3 3
     (by decide) (by decide) (by decide)⟩

/-- C2: `Life.Apply` agrees with the canonical Conway rules. At every position of every
grid where the neighbour count `n` and the cell state `a` are defined it returns
`canonicalConway a n`; so the result is alive if and only if the cell is alive with 2 or 3
live neighbours or dead with exactly 3, and it is dead for every other count. On every
rectangular grid (width, height >= 1) the count and the state are defined at every
position. -/
theorem C2_Life_Apply_canonical (g : Grid) (x y : Int) :
    (∀ (n : Int) (a : Bool), g.LiveNeighbours x y = some n → g.Alive x y = some a →
      Life.Apply g x y = some (canonicalConway a n) ∧
      (Life.Apply g x y = some true ↔
        (a = true ∧ (n = 2 ∨ n = 3)) ∨ (a = false ∧ n = 3)) ∧
      (n ≠ 2 → n ≠ 3 → Life.Apply g x y = some false)) ∧
    (∀ w h : Nat, g.Rect w h → 1 ≤ w → 1 ≤ h →
      ∃ (n : Int) (a : Bool), g.LiveNeighbours x y = some n ∧ g.Alive x y = some a ∧
        0 ≤ n ∧ n ≤ 8) := by
  constructor
  · intro n a hn ha
    have happ : Life.Apply g x y = some (canonicalConway a n) := by
      simp only [Life.Apply, hn, ha, Option.bind_eq_bind, Option.some_bind, pure]
      by_cases h3 : n = 3
      · subst h3; cases a <;> simp [canonicalConway]
      · by_cases h2 : n = 2
        · subst h2; cases a <;> simp [canonicalConway]
        · cases a <;> simp [canonicalConway, h2, h3]
    refine ⟨happ, ?_, ?_⟩
    · rw [happ]
      cases a <;> simp [canonicalConway]
    · intro h2 h3
      rw [happ]
      cases a <;> simp [canonicalConway, h2, h3]
  · intro w h hr _ hh
    refine ⟨_, _, Grid.LiveNeighbours_of_rect hr hh x y, Grid.Alive_eq_state hr hh x y, ?_, ?_⟩
    · simp only [toCount]
      split_ifs <;> omega
    · simp only [toCount]
      split_ifs <;> omega

/-- C2, at the centre of the 3 by 3 grid with live cells (1,1), (0,0), (1,0): a live cell
with two live neighbours. -/
theorem C2_Life_Apply_canonical_witness :
    (Grid.LiveNeighbours [[true, true, false], [false, true, false], [false, false, false]]
        1 1 = some 2 ∧
      Grid.Alive [[true, true, false], [false, true, false], [false, false, false]]
        1 1 = some true) ∧
    (Life.Apply [[true, true, false], [false, true, false], [false, false, false]] 1 1
        = some (canonicalConway true 2) ∧
      (Life.Apply [[true, true, false], [false, true, false], [false, false, false]] 1 1
          = some true ↔
        (true = true ∧ ((2 : Int) = 2 ∨ (2 : Int) = 3)) ∨ (true = false ∧ (2 : Int) = 3)) ∧
      ((2 : Int) ≠ 2 → (2 : Int) ≠ 3 →
        Life.Apply [[true, true, false], [false, true, false], [false, false, false]] 1 1
          = some false)) :=
  ⟨⟨by decide, by decide⟩,
   (C2_Life_Apply_canonical
     [[true, true, false], [false, true, false], [false, false, false]] 1 1).1 2 true
     (by decide) (by decide)⟩

/-- C3: `Infection.Apply`, at every position of every grid where the cell state `a`, the
orthogonal count `o` and the diagonal count `d` are defined, returns alive if and only if
(`a` is dead and `o + d = 1`) or (`a` is alive and `o > 0`); in particular a live cell with
`o = 0` becomes dead whatever `d` is and a dead cell with `o + d != 1` stays dead. On every
rectangular grid (width, height >= 1) the state and both counts are defined at every
position. -/
theorem C3_Infection_Apply_rule (g : Grid) (x y : Int) :
    (∀ (a : Bool) (o d : Int), g.Alive x y = some a →
      g.HorizontalAndVerticalLiveNeighbours x y = some o →
      g.DiagonalLiveNeighbours x y = some d →
      Infection.Apply g x y = some (infectionRule a o d) ∧
      (Infection.Apply g x y = some true ↔
        (a = false ∧ o + d = 1) ∨ (a = true ∧ o > 0)) ∧
      (a = true → o = 0 → Infection.Apply g x y = some false) ∧
      (a = false → o + d ≠ 1 → Infection.Apply g x y = some false)) ∧
    (∀ w h : Nat, g.Rect w h → 1 ≤ w → 1 ≤ h →
      ∃ (a : Bool) (o d : Int), g.Alive x y = some a ∧
        g.HorizontalAndVerticalLiveNeighbours x y = some o ∧
        g.DiagonalLiveNeighbours x y = some d) := by
  constructor
  · intro a o d ha ho hd
    have happ : Infection.Apply g x y = some (infectionRule a o d) := by
      simp only [Infection.Apply, ha, ho, hd, Option.bind_eq_bind, Option.some_bind, pure]
      cases a
      · by_cases h1 : o + d = 1 <;> simp [infectionRule, h1]
      · by_cases h1 : o > 0 <;> simp [infectionRule, h1]
    refine ⟨happ, ?_, ?_, ?_⟩
    · rw [happ]
      cases a <;> simp [infectionRule]
    · intro h1 h2
      rw [happ]
      subst h1 h2
      simp [infectionRule]
    · intro h1 h2
      rw [happ]
      subst h1
      simp [infectionRule, h2]
  · intro w h hr _ hh
    exact ⟨_, _, _, Grid.Alive_eq_state hr hh x y,
      Grid.HorizontalAndVerticalLiveNeighbours_of_rect hr hh x y,
      Grid.DiagonalLiveNeighbours_of_rect hr hh x y⟩

/-- C3, at the centre of the 3 by 3 grid whose only live cell is (0,0): a dead cell with one
diagonal live neighbour. -/
theorem C3_Infection_Apply_rule_witness :
    (Grid.Alive [[true, false, false], [false, false, false], [false, false, false]]
        1 1 = some false ∧
      Grid.HorizontalAndVerticalLiveNeighbours
        [[true, false, false], [false, false, false], [false, false, false]] 1 1 = some 0 ∧
      Grid.DiagonalLiveNeighbours
        [[true, false, false], [false, false, false], [false, false, false]] 1 1 = some 1) ∧
    (Infection.Apply [[true, false, false], [false, false, false], [false, false, false]] 1 1
        = some (infectionRule false 0 1) ∧
      (Infection.Apply [[true, false, false], [false, false, false], [false, false, false]]
          1 1 = some true ↔
        (false = false ∧ (0 : Int) + 1 = 1) ∨ (false = true ∧ (0 : Int) > 0)) ∧
      (false = true → (0 : Int) = 0 →
        Infection.Apply [[true, false, false], [false, false, false], [false, false, false]]
          1 1 = some false) ∧
      (false = false → (0 : Int) + 1 ≠ 1 →
        Infection.Apply [[true, false, false], [false, false, false], [false, false, false]]
          1 1 = some false)) :=
  ⟨⟨by decide, by decide, by decide⟩,
   (C3_Infection_Apply_rule
     [[true, false, false], [false, false, false], [false, false, false]] 1 1).1 false 0 1
     (by decide) (by decide) (by decide)⟩

/-- C4, as stated, fails on the grid without rows: position (0, 0) satisfies
`y >= Height()` there, and `Alive(0, 0)` reads `Width()`, which indexes row 0 of a grid
that has none, so it fails instead of returning false. -/
theorem C4_Alive_outside_counterexample :
    (0 : Int) ≥ Grid.Height ([] : Grid) ∧ Grid.Alive ([] : Grid) 0 0 = none ∧
      Grid.Alive ([] : Grid) 0 0 ≠ some false := by
  decide

/-- C4 (amended): for every grid and every integer pair (x, y) with x < 0 or y < 0, and for
every grid with at least one row and every integer pair (x, y) with x >= Width() or
y >= Height(), `Alive(x, y)` returns false, regardless of the grid's contents (the rows need
not have equal lengths). -/
theorem C4_Alive_outside (g : Grid) (x y : Int)
    (hout : x < 0 ∨ y < 0 ∨ (∃ w : Int, g.Width = some w ∧ x ≥ w) ∨
      (1 ≤ g.Height ∧ y ≥ g.Height)) :
    g.Alive x y = some false := by
  unfold Grid.Alive
  by_cases hneg : x < 0 ∨ y < 0
  · rw [if_pos hneg]
  · rw [if_neg hneg]
    cases g with
    | nil =>
      rcases hout with h | h | ⟨w, hw, _⟩ | ⟨h, _⟩
      · exact absurd (Or.inl h) hneg
      · exact absurd (Or.inr h) hneg
      · simp [Grid.Width, sliceIndex] at hw
      · simp [Grid.Height] at h
    | cons row rest =>
      have hwidth : Grid.Width (row :: rest) = some (row.length : Int) := by
        simp [Grid.Width, sliceIndex]
      rw [hwidth]
      simp only
      have hcond : x ≥ (row.length : Int) ∨ y ≥ Grid.Height (row :: rest) := by
        rcases hout with h | h | ⟨w, hw, hx⟩ | ⟨_, h⟩
        · exact absurd (Or.inl h) hneg
        · exact absurd (Or.inr h) hneg
        · rw [hwidth] at hw
          cases hw
          exact Or.inl hx
        · exact Or.inr h
      rw [if_pos hcond]

/-- C4 (amended), at the ragged grid with rows [true, true] and [true] and the position
(0, 2), which is below the last row. -/
theorem C4_Alive_outside_witness :
    ((0 : Int) < 0 ∨ (2 : Int) < 0 ∨
        (∃ w : Int, Grid.Width [[true, true], [true]] = some w ∧ (0 : Int) ≥ w) ∨
        (1 ≤ Grid.Height [[true, true], [true]] ∧
          (2 : Int) ≥ Grid.Height [[true, true], [true]])) ∧
    Grid.Alive [[true, true], [true]] 0 2 = some false :=
  ⟨Or.inr (Or.inr (Or.inr ⟨by decide, by decide⟩)),
   C4_Alive_outside [[true, true], [true]] 0 2
     (Or.inr (Or.inr (Or.inr ⟨by decide, by decide⟩)))⟩

/-- C5: for every rectangular grid (width, height >= 1) and every position (x, y),
`LiveNeighbours(x, y)` returns the number of in-bounds cells (x', y') != (x, y) with
|x' - x| <= 1 and |y' - y| <= 1 that are alive: positions beyond the edge contribute
nothing, no cell of the opposite edge is counted and the cell itself is never counted. -/
theorem C5_LiveNeighbours_count (g : Grid) (w h : Nat) (_hw : 1 ≤ w) (hh : 1 ≤ h)
    (hr : g.Rect w h) (x y : Int) :
    g.LiveNeighbours x y = some ((liveNeighbourCells g w h x y).card : Int) := by
  rw [Grid.LiveNeighbours_of_rect hr hh, card_liveNeighbourCells hr]

/-- C5, at the corner (0, 0) of a 3 by 3 grid whose opposite edges hold live cells. -/
theorem C5_LiveNeighbours_count_witness :
    (1 ≤ 3 ∧ 1 ≤ 3 ∧
      Grid.Rect [[true, true, true], [false, true, true], [true, true, true]] 3 3) ∧
    Grid.LiveNeighbours [[true, true, true], [false, true, true], [true, true, true]] 0 0 =
      some ((liveNeighbourCells
        [[true, true, true], [false, true, true], [true, true, true]] 3 3 0 0).card : Int) :=
  ⟨⟨by decide, by decide, by decide⟩,
   C5_LiveNeighbours_count [[true, true, true], [false, true, true], [true, true, true]]
     3 3 (by decide) (by decide) (by decide) 0 0⟩

/-- C6: `currentRules` selects Life when currentGeneration <= InfectAfter and Infection
otherwise; so from a game freshly created with InfectAfter = 1, seeded or not (the unseeded
game is the case of its own grid as seed), the state after `k` steps has generation `k`,
and the step taken there applies Life when `k` is 0 or 1 and Infection when `k >= 2`. -/
theorem C6_rule_selection (w h : Nat) (mg : Int) (_hw : 1 ≤ w) (hh : 1 ≤ h) :
    (∀ g : Game, g.currentRules =
      if g.currentGeneration ≤ g.InfectAfter then Rules.Life g.Grid
      else Rules.Infection g.Grid) ∧
    ∃ g0 : Game, NewGame (w : Int) (h : Int) 1 mg = some g0 ∧ g0.Grid.Rect w h ∧
      g0.Seed g0.Grid = g0 ∧
      ∀ (seed : Grid) (w' h' : Nat), seed.Rect w' h' → 1 ≤ w' → 1 ≤ h' → ∀ k : Nat,
        ∃ gk gk1 : Game, (g0.Seed seed).steps k = some gk ∧
          gk.currentGeneration = (k : Int) ∧
          gk.currentRules =
            (if k ≤ 1 then Rules.Life gk.Grid else Rules.Infection gk.Grid) ∧
          gk.TimeStep = some gk1 ∧
          ∀ x y : Int, 0 ≤ x → x < (w' : Int) → 0 ≤ y → y < (h' : Int) →
            ∃ b : Bool, gk1.Grid.Alive x y = some b ∧
              (if k ≤ 1 then Life.Apply gk.Grid x y
               else Infection.Apply gk.Grid x y) = some b := by
  refine ⟨fun g => rfl, _, NewGame_natCast w h hh 1 mg, rect_replicate w h, rfl, ?_⟩
  intro seed w' h' hs _ hh' k
  have hs0 : (Game.Seed ⟨List.replicate h (List.replicate w false), 1, mg, 0⟩ seed).Grid.Rect
      w' h' := hs
  obtain ⟨gk, hk, hrk, hgen, hia, _⟩ := Game.steps_of_rect k hs0 hh'
  obtain ⟨next, hstep, hrn, hcell⟩ := Game.TimeStep_of_rect hrk hh'
  have hgen' : gk.currentGeneration = (k : Int) := by
    rw [hgen]; simp [Game.Seed]
  have hia' : gk.InfectAfter = 1 := by
    rw [hia]; rfl
  have hcond : (gk.currentGeneration ≤ gk.InfectAfter) ↔ k ≤ 1 := by
    rw [hgen', hia']; omega
  have hrules : gk.currentRules =
      (if k ≤ 1 then Rules.Life gk.Grid else Rules.Infection gk.Grid) := by
    unfold Game.currentRules
    by_cases hk1 : k ≤ 1
    · rw [if_pos (hcond.mpr hk1), if_pos hk1]
    · rw [if_neg (fun hc => hk1 (hcond.mp hc)), if_neg hk1]
  refine ⟨gk, _, hk, hgen', hrules, hstep, ?_⟩
  intro x y hx0 hxw hy0 hyh
  have hxn : x.toNat < w' := by omega
  have hyn : y.toNat < h' := by omega
  have hxe : ((x.toNat : Nat) : Int) = x := Int.toNat_of_nonneg hx0
  have hye : ((y.toNat : Nat) : Int) = y := Int.toNat_of_nonneg hy0
  refine ⟨next.cell x.toNat y.toNat, ?_, ?_⟩
  · have := Grid.Alive_natCast_of_rect hrn hxn hyn
    rwa [hxe, hye] at this
  · have := hcell x.toNat y.toNat hxn hyn
    rw [hxe, hye, hrules] at this
    rw [← this]
    split_ifs <;> rfl

/-- C6, at `NewGame(3, 3, 1, 5)`. -/
theorem C6_rule_selection_witness :
    (1 ≤ 3 ∧ 1 ≤ 3) ∧
    ((∀ g : Game, g.currentRules =
      if g.currentGeneration ≤ g.InfectAfter then Rules.Life g.Grid
      else Rules.Infection g.Grid) ∧
    ∃ g0 : Game, NewGame ((3 : Nat) : Int) ((3 : Nat) : Int) 1 5 = some g0 ∧
      g0.Grid.Rect 3 3 ∧ g0.Seed g0.Grid = g0 ∧
      ∀ (seed : Grid) (w' h' : Nat), seed.Rect w' h' → 1 ≤ w' → 1 ≤ h' → ∀ k : Nat,
        ∃ gk gk1 : Game, (g0.Seed seed).steps k = some gk ∧
          gk.currentGeneration = (k : Int) ∧
          gk.currentRules =
            (if k ≤ 1 then Rules.Life gk.Grid else Rules.Infection gk.Grid) ∧
          gk.TimeStep = some gk1 ∧
          ∀ x y : Int, 0 ≤ x → x < (w' : Int) → 0 ≤ y → y < (h' : Int) →
            ∃ b : Bool, gk1.Grid.Alive x y = some b ∧
              (if k ≤ 1 then Life.Apply gk.Grid x y
               else Infection.Apply gk.Grid x y) = some b) :=
  ⟨⟨by decide, by decide⟩, C6_rule_selection 3 3 5 (by decide) (by decide)⟩

/-- C8: in every state reachable from `NewGame(width, height, infectAfter, maxGenerations)`
with all four arguments >= 1, by `Seed` (with any grid) and by `TimeStep` taken only when
`Over()` is false, 0 <= currentGeneration <= MaxGenerations holds (and MaxGenerations is
the value given to `NewGame`). -/
theorem C8_generation_invariant (width height infectAfter maxGenerations : Int)
    (_hw : 1 ≤ width) (_hh : 1 ≤ height) (_hi : 1 ≤ infectAfter) (hm : 1 ≤ maxGenerations)
    (g : Game) (hreach : Reachable width height infectAfter maxGenerations g) :
    0 ≤ g.currentGeneration ∧ g.currentGeneration ≤ g.MaxGenerations ∧
      g.MaxGenerations = maxGenerations := by
  induction hreach with
  | fresh g hnew =>
    simp only [NewGame, Option.bind_eq_bind, Option.bind_eq_some, pure,
      Option.some.injEq] at hnew
    obtain ⟨_, _, rfl⟩ := hnew
    exact ⟨le_refl _, by show (0 : Int) ≤ maxGenerations; omega, rfl⟩
  | seed g grid _ ih => exact ih
  | step g g' _ hover hstep ih =>
    obtain ⟨hgen, _, hmg⟩ := Game.TimeStep_fields hstep
    obtain ⟨h0, _, hmax⟩ := ih
    have hlt : g.currentGeneration < g.MaxGenerations := by
      simpa [Game.Over] using hover
    rw [hgen, hmg]
    exact ⟨by omega, by omega, hmax⟩

/-- C8, at the state the driver reaches from `NewGame(3, 3, 1, 2)` by seeding the vertical
blinker and taking one step. -/
theorem C8_generation_invariant_witness :
    ((1 : Int) ≤ 3 ∧ (1 : Int) ≤ 3 ∧ (1 : Int) ≤ 1 ∧ (1 : Int) ≤ 2 ∧
      Reachable 3 3 1 2
        ⟨[[false, false, false], [true, true, true], [false, false, false]], 1, 2, 1⟩) ∧
    (0 ≤ (Game.mk [[false, false, false], [true, true, true], [false, false, false]]
        1 2 1).currentGeneration ∧
      (Game.mk [[false, false, false], [true, true, true], [false, false, false]]
        1 2 1).currentGeneration ≤
      (Game.mk [[false, false, false], [true, true, true], [false, false, false]]
        1 2 1).MaxGenerations ∧
      (Game.mk [[false, false, false], [true, true, true], [false, false, false]]
        1 2 1).MaxGenerations = 2) :=
  ⟨⟨by decide, by decide, by decide, by decide,
    Reachable.step
      ⟨[[false, true, false], [false, true, false], [false, true, false]], 1, 2, 0⟩ _
      (Reachable.seed
        ⟨[[false, false, false], [false, false, false], [false, false, false]], 1, 2, 0⟩
        [[false, true, false], [false, true, false], [false, true, false]]
        (Reachable.fresh _ (by decide)))
      (by decide) (by decide)⟩,
   C8_generation_invariant 3 3 1 2 (by decide) (by decide) (by decide) (by decide)
     ⟨[[false, false, false], [true, true, true], [false, false, false]], 1, 2, 1⟩
     (Reachable.step
      ⟨[[false, true, false], [false, true, false], [false, true, false]], 1, 2, 0⟩ _
      (Reachable.seed
        ⟨[[false, false, false], [false, false, false], [false, false, false]], 1, 2, 0⟩
        [[false, true, false], [false, true, false], [false, true, false]]
        (Reachable.fresh _ (by decide)))
      (by decide) (by decide))⟩

/-- C9, as stated, fails on a rectangular grid whose two rows are the same slice
(`Grid{row, row}` with `row := make([]bool, 1)`): `Set(0, 0, true)` writes the one cell in
place, and `Alive(0, 1)`, false before, is true afterwards. -/
theorem C9_Set_frame_counterexample :
    MemGrid.Rect ⟨[false], [⟨0, 1⟩, ⟨0, 1⟩]⟩ 1 2 ∧
      MemGrid.Allocated ⟨[false], [⟨0, 1⟩, ⟨0, 1⟩]⟩ ∧
      MemGrid.Set ⟨[false], [⟨0, 1⟩, ⟨0, 1⟩]⟩ 0 0 true =
        some ⟨[true], [⟨0, 1⟩, ⟨0, 1⟩]⟩ ∧
      ((0 : Int), (1 : Int)) ≠ ((0 : Int), (0 : Int)) ∧
      MemGrid.Alive ⟨[false], [⟨0, 1⟩, ⟨0, 1⟩]⟩ 0 1 = some false ∧
      MemGrid.Alive ⟨[true], [⟨0, 1⟩, ⟨0, 1⟩]⟩ 0 1 = some true := by
  decide

/-- C9 (amended): for every rectangular grid (its rows lying in allocated memory, as those
of every Go value do), every in-bounds (x, y) and every boolean a, `Set(x, y, a)` returns,
afterwards `Alive(x, y) = a`, `Alive(x', y')` is unchanged for every other integer pair
(x', y'), in or out of bounds, whose cell is not the cell written, hence for every other
pair when no two rows share a cell, and `Width()` and `Height()` are unchanged. -/
theorem C9_Set_frame (g : MemGrid) (w h : Nat) (hr : g.Rect w h) (halloc : g.Allocated)
    (x y : Int) (a : Bool)
    (hx0 : 0 ≤ x) (hxw : x < (w : Int)) (hy0 : 0 ≤ y) (hyh : y < (h : Int)) :
    ∃ g' : MemGrid, g.Set x y a = some g' ∧ g'.Alive x y = some a ∧
      (∀ x' y' : Int, (x', y') ≠ (x, y) → g.cellAddress x' y' ≠ g.cellAddress x y →
        g'.Alive x' y' = g.Alive x' y') ∧
      (g.OwnRows → ∀ x' y' : Int, (x', y') ≠ (x, y) → g'.Alive x' y' = g.Alive x' y') ∧
      g'.Width = g.Width ∧ g'.Height = g.Height := by
  have hh : 0 < h := by omega
  obtain ⟨g', hset, hrows, hread, hframe⟩ :=
    MemGrid.Set_of_memRect hr halloc a hx0 hxw hy0 hyh
  have hr' : g'.Rect w h := by
    unfold MemGrid.Rect
    rw [hrows]
    exact hr
  refine ⟨g', hset, hread, fun x' y' _ hne => hframe x' y' hne, ?_, ?_, ?_⟩
  · intro hown x' y' hne
    by_cases hin : 0 ≤ x' ∧ x' < (w : Int) ∧ 0 ≤ y' ∧ y' < (h : Int)
    · exact hframe x' y'
        (MemGrid.cellAddress_ne_of_ownRows hr hown hx0 hxw hy0 hyh
          hin.1 hin.2.1 hin.2.2.1 hin.2.2.2 hne)
    · rw [MemGrid.Alive_of_memRect hr' hh, MemGrid.Alive_of_memRect hr hh, if_neg hin, if_neg hin]
  · rw [MemGrid.Width_of_memRect hr' hh, MemGrid.Width_of_memRect hr hh]
  · unfold MemGrid.Height
    rw [hrows]

/-- C9 (amended), at the 2 by 2 all-dead grid with two separate rows, setting the cell
(1, 0) alive. -/
theorem C9_Set_frame_witness :
    (MemGrid.Rect ⟨[false, false, false, false], [⟨0, 2⟩, ⟨2, 2⟩]⟩ 2 2 ∧
      MemGrid.Allocated ⟨[false, false, false, false], [⟨0, 2⟩, ⟨2, 2⟩]⟩ ∧
      (0 : Int) ≤ 1 ∧ (1 : Int) < ((2 : Nat) : Int) ∧ (0 : Int) ≤ 0 ∧
      (0 : Int) < ((2 : Nat) : Int) ∧
      MemGrid.OwnRows ⟨[false, false, false, false], [⟨0, 2⟩, ⟨2, 2⟩]⟩) ∧
    ∃ g' : MemGrid,
      MemGrid.Set ⟨[false, false, false, false], [⟨0, 2⟩, ⟨2, 2⟩]⟩ 1 0 true = some g' ∧
      g'.Alive 1 0 = some true ∧
      (∀ x' y' : Int, (x', y') ≠ ((1 : Int), (0 : Int)) →
        MemGrid.cellAddress ⟨[false, false, false, false], [⟨0, 2⟩, ⟨2, 2⟩]⟩ x' y' ≠
          MemGrid.cellAddress ⟨[false, false, false, false], [⟨0, 2⟩, ⟨2, 2⟩]⟩ 1 0 →
        g'.Alive x' y' =
          MemGrid.Alive ⟨[false, false, false, false], [⟨0, 2⟩, ⟨2, 2⟩]⟩ x' y') ∧
      (MemGrid.OwnRows ⟨[false, false, false, false], [⟨0, 2⟩, ⟨2, 2⟩]⟩ →
        ∀ x' y' : Int, (x', y') ≠ ((1 : Int), (0 : Int)) →
          g'.Alive x' y' =
            MemGrid.Alive ⟨[false, false, false, false], [⟨0, 2⟩, ⟨2, 2⟩]⟩ x' y') ∧
      g'.Width = MemGrid.Width ⟨[false, false, false, false], [⟨0, 2⟩, ⟨2, 2⟩]⟩ ∧
      g'.Height = MemGrid.Height ⟨[false, false, false, false], [⟨0, 2⟩, ⟨2, 2⟩]⟩ :=
  ⟨⟨by decide, by decide, by decide, by decide, by decide, by decide, by decide⟩,
   C9_Set_frame ⟨[false, false, false, false], [⟨0, 2⟩, ⟨2, 2⟩]⟩ 2 2 (by decide) (by decide)
     1 0 true (by decide) (by decide) (by decide) (by decide)⟩

/-- C10: for every w >= 1 and h >= 1, `NewGrid(w, h)` returns a grid with `Width() = w`
and `Height() = h`, every row of which has exactly w entries, and `Alive(x, y) = false`
for every integer pair (x, y). -/
theorem C10_NewGrid (w h : Int) (hw : 1 ≤ w) (hh : 1 ≤ h) :
    ∃ g : Grid, NewGrid w h = some g ∧ g.Width = some w ∧ g.Height = h ∧
      (∀ row ∈ g, (row.length : Int) = w) ∧
      ∀ x y : Int, g.Alive x y = some false := by
  have hwe : ((w.toNat : Nat) : Int) = w := Int.toNat_of_nonneg (by omega)
  have hhe : ((h.toNat : Nat) : Int) = h := Int.toNat_of_nonneg (by omega)
  have hhn : 0 < h.toNat := by omega
  have hnew := NewGrid_natCast w.toNat h.toNat hhn
  rw [hwe, hhe] at hnew
  have hr := rect_replicate w.toNat h.toNat
  refine ⟨_, hnew, ?_, ?_, ?_, ?_⟩
  · rw [Grid.Width_of_rect hr hhn, hwe]
  · rw [Grid.Height_of_rect hr, hhe]
  · intro row hrow
    rw [hr.2 row hrow, hwe]
  · intro x y
    rw [Grid.Alive_of_rect hr hhn, cell_replicate]
    simp

/-- C10, at `NewGrid(2, 4)`. -/
theorem C10_NewGrid_witness :
    ((1 : Int) ≤ 2 ∧ (1 : Int) ≤ 4) ∧
    ∃ g : Grid, NewGrid 2 4 = some g ∧ g.Width = some 2 ∧ g.Height = 4 ∧
      (∀ row ∈ g, (row.length : Int) = 2) ∧
      ∀ x y : Int, g.Alive x y = some false :=
  ⟨⟨by decide, by decide⟩, C10_NewGrid 2 4 (by decide) (by decide)⟩

/-- C11: for every rectangular grid with width w >= 1 and height h >= 1, `Print` returns,
and the characters it emits before the terminating newline form a string of length exactly
w*h over {'0','1'} whose character at index y*w + x is '1' if and only if `Alive(x, y)`,
for every 0 <= x < w and 0 <= y < h (row-major, no separators between rows). -/
theorem C11_Print_rendering (g : Grid) (w h : Nat) (_hw : 1 ≤ w) (hh : 1 ≤ h)
    (hr : g.Rect w h) :
    ∃ s : String, g.Print = some (s ++ "\n") ∧ s.length = w * h ∧
      (∀ c ∈ s.toList, c = '0' ∨ c = '1') ∧
      ∀ x y : Nat, x < w → y < h →
        (s.toList[y * w + x]? = some '1' ↔ g.Alive (x : Int) (y : Int) = some true) := by
  refine ⟨String.mk (renderCells g w (h * w)), Grid.Print_of_rect hr hh, ?_, ?_, ?_⟩
  · show (renderCells g w (h * w)).length = w * h
    rw [renderCells_length, Nat.mul_comm]
  · intro c hc
    have hc' : c ∈ renderCells g w (h * w) := hc
    simp only [renderCells, List.mem_map] at hc'
    obtain ⟨i, _, rfl⟩ := hc'
    cases g.cell (i % w) (i / w) <;> simp [cellChar]
  · intro x y hx hy
    have hidx : y * w + x < h * w := by
      have h1 : (y + 1) * w ≤ h * w := Nat.mul_le_mul_right w hy
      rw [Nat.add_mul, Nat.one_mul] at h1
      omega
    show (renderCells g w (h * w))[y * w + x]? = some '1' ↔ _
    rw [renderCells_getElem? g w (h * w) _ hidx, index_mod_width y hx, index_div_width y hx,
      Grid.Alive_natCast_of_rect hr hx hy]
    simp only [Option.some.injEq]
    exact cellChar_eq_one _

/-- C11, at the 3 by 2 grid with live cells (1, 0) and (2, 1). -/
theorem C11_Print_rendering_witness :
    (1 ≤ 3 ∧ 1 ≤ 2 ∧ Grid.Rect [[false, true, false], [false, false, true]] 3 2) ∧
    ∃ s : String, Grid.Print [[false, true, false], [false, false, true]] = some (s ++ "\n") ∧
      s.length = 3 * 2 ∧ (∀ c ∈ s.toList, c = '0' ∨ c = '1') ∧
      ∀ x y : Nat, x < 3 → y < 2 →
        (s.toList[y * 3 + x]? = some '1' ↔
          Grid.Alive [[false, true, false], [false, false, true]] (x : Int) (y : Int)
            = some true) :=
  ⟨⟨by decide, by decide, by decide⟩,
   C11_Print_rendering [[false, true, false], [false, false, true]] 3 2
     (by decide) (by decide) (by decide)⟩

/-- C12, as stated, fails on a grid with a row shorter than the first: the grid with rows
[true] and [] holds exactly one live cell, and a Life step on it reads the missing cell
(0, 1) as a neighbour of (0, 0), so `TimeStep` fails instead of yielding the all-dead
grid. -/
theorem C12_end_to_end_counterexample :
    Grid.onlyLiveCell [[true], []] 0 0 ∧
      (Game.mk [[true], []] 1 2 0).currentRules = Rules.Life [[true], []] ∧
      Game.TimeStep (Game.mk [[true], []] 1 2 0) = none := by
  refine ⟨?_, by decide, by decide⟩
  intro x y
  rcases x with _ | x <;> rcases y with _ | _ | y <;> simp [Grid.cell]

/-- C12 (amended): `NewGame(3, 3, 1, 2)` seeded with the 3 by 3 grid whose only live cell
is (1, 1) renders as "000010000"; after one `TimeStep` (Life applies at generation 0) it
renders as "000000000", the generation counter is 1 and `Over()` is still false. More
generally, for every grid with at least one row, none of whose rows is shorter than the
first (every rectangular grid in particular), that holds exactly one live cell, one Life
step returns the all-dead grid of the same width and height. -/
theorem C12_end_to_end (g : Game) (w h x0 y0 : Nat) (hwide : g.Grid.Wide w h)
    (hone : g.Grid.onlyLiveCell x0 y0) (hlife : g.currentGeneration ≤ g.InfectAfter) :
    (∃ g0 g1 : Game, NewGame 3 3 1 2 = some g0 ∧
      Grid.Print
        (g0.Seed [[false, false, false], [false, true, false], [false, false, false]]).Grid
        = some "000010000\n" ∧
      (g0.Seed [[false, false, false], [false, true, false], [false, false, false]]).currentRules
        = Rules.Life [[false, false, false], [false, true, false], [false, false, false]] ∧
      (g0.Seed [[false, false, false], [false, true, false], [false, false, false]]).TimeStep
        = some g1 ∧
      Grid.Print g1.Grid = some "000000000\n" ∧
      g1.currentGeneration = 1 ∧ g1.Over = false) ∧
    g.TimeStep = some { g with Grid := List.replicate h (List.replicate w false),
                               currentGeneration := g.currentGeneration + 1 } ∧
    (∀ w' h' : Nat, g.Grid.Rect w' h' → 1 ≤ h' → g.Grid.Wide w' h') := by
  refine ⟨⟨⟨[[false, false, false], [false, false, false], [false, false, false]], 1, 2, 0⟩,
    ⟨[[false, false, false], [false, false, false], [false, false, false]], 1, 2, 1⟩,
    by decide, by decide, by decide, by decide, by decide, by decide, by decide⟩,
    Game.TimeStep_of_onlyLiveCell hwide hone hlife, fun w' h' hr hh => hr.wide hh⟩

/-- C12 (amended), at the seeded game of the end-to-end run itself. -/
theorem C12_end_to_end_witness :
    (Grid.Wide [[false, false, false], [false, true, false], [false, false, false]] 3 3 ∧
      Grid.onlyLiveCell [[false, false, false], [false, true, false], [false, false, false]]
        1 1 ∧
      (0 : Int) ≤ 1) ∧
    Game.TimeStep
        ⟨[[false, false, false], [false, true, false], [false, false, false]], 1, 2, 0⟩ =
      some ⟨List.replicate 3 (List.replicate 3 false), 1, 2, 0 + 1⟩ :=
  ⟨⟨by decide,
    fun x y => by
      rcases x with _ | _ | _ | x <;> rcases y with _ | _ | _ | y <;> simp [Grid.cell],
    by decide⟩,
   (C12_end_to_end
     ⟨[[false, false, false], [false, true, false], [false, false, false]], 1, 2, 0⟩
     3 3 1 1 (by decide)
     (fun x y => by
      rcases x with _ | _ | _ | x <;> rcases y with _ | _ | _ | y <;> simp [Grid.cell])
     (by decide)).2.1⟩

/-- C13: for every w >= 1, h >= 1 and every seed consisting of exactly w*h tokens (free of
spaces) separated by single spaces, splitting the seed gives the tokens back and
`parseSeed(w, h, seed)` returns a w by h grid in which the cell (i % w, i / w) is alive if
and only if the i-th token is exactly "1"; consequently, when every token is "0" or "1",
`Print` on the parsed grid emits the seed with its spaces removed (and the newline). -/
theorem C13_seed_round_trip (w h : Nat) (hw : 1 ≤ w) (hh : 1 ≤ h) (tokens : List String)
    (hlen : tokens.length = w * h) (hsp : ∀ t ∈ tokens, ' ' ∉ t.toList) :
    stringsSplit (String.intercalate " " tokens) = tokens ∧
    ∃ g : Grid, parseSeed (w : Int) (h : Int) (String.intercalate " " tokens) = some g ∧
      g.Rect w h ∧
      (∀ i : Nat, i < w * h →
        (g.Alive ((i % w : Nat) : Int) ((i / w : Nat) : Int) = some true ↔
          tokens[i]? = some "1")) ∧
      ((∀ t ∈ tokens, t = "0" ∨ t = "1") →
        g.Print = some (String.mk ((String.intercalate " " tokens).toList.filter
          (fun c => decide (c ≠ ' '))) ++ "\n")) := by
  have hpos : 0 < w * h := Nat.mul_pos hw hh
  have hne : tokens ≠ [] := by
    intro hnil
    rw [hnil] at hlen
    simp at hlen
    omega
  have hsplit := stringsSplit_intercalate tokens hne hsp
  obtain ⟨g, hparse, hrect, hcell⟩ :=
    parseSeed_of_le hw hh (String.intercalate " " tokens) (by rw [hsplit, hlen])
  rw [hsplit] at hcell
  have hcell' : ∀ i : Nat, i < w * h →
      g.cell (i % w) (i / w) = decide (tokens[i]? = some "1") := by
    intro i hi
    have hx : i % w < w := Nat.mod_lt _ hw
    have hy : i / w < h := by rw [Nat.div_lt_iff_lt_mul hw, Nat.mul_comm]; exact hi
    rw [hcell _ _ hx hy, index_of_div_mod]
  refine ⟨hsplit, g, hparse, hrect, ?_, ?_⟩
  · intro i hi
    have hx : i % w < w := Nat.mod_lt _ hw
    have hy : i / w < h := by rw [Nat.div_lt_iff_lt_mul hw, Nat.mul_comm]; exact hi
    rw [Grid.Alive_natCast_of_rect hrect hx hy, hcell' i hi]
    simp
  · intro hbin
    rw [Grid.Print_of_rect hrect hh, filter_intercalate tokens hne hbin]
    have hrender : renderCells g w (h * w) =
        tokens.map (fun t => cellChar (decide (t = "1"))) := by
      have h1 : renderCells g w (h * w) =
          (List.range tokens.length).map
            (fun i => cellChar (decide (tokens[i]? = some "1"))) := by
        rw [hlen, Nat.mul_comm h w]
        apply List.map_congr_left
        intro i hi
        rw [hcell' i (List.mem_range.mp hi)]
      rw [h1, map_range_getElem? tokens (fun o => cellChar (decide (o = some "1")))]
      simp
    rw [hrender]

/-- C13, at the 2 by 2 seed "0 1 1 0". -/
theorem C13_seed_round_trip_witness :
    (1 ≤ 2 ∧ 1 ≤ 2 ∧ ["0", "1", "1", "0"].length = 2 * 2 ∧
      ∀ t ∈ ["0", "1", "1", "0"], ' ' ∉ t.toList) ∧
    (stringsSplit (String.intercalate " " ["0", "1", "1", "0"]) = ["0", "1", "1", "0"] ∧
    ∃ g : Grid,
      parseSeed ((2 : Nat) : Int) ((2 : Nat) : Int)
        (String.intercalate " " ["0", "1", "1", "0"]) = some g ∧
      g.Rect 2 2 ∧
      (∀ i : Nat, i < 2 * 2 →
        (g.Alive ((i % 2 : Nat) : Int) ((i / 2 : Nat) : Int) = some true ↔
          ["0", "1", "1", "0"][i]? = some "1")) ∧
      ((∀ t ∈ ["0", "1", "1", "0"], t = "0" ∨ t = "1") →
        g.Print = some (String.mk ((String.intercalate " " ["0", "1", "1", "0"]).toList.filter
          (fun c => decide (c ≠ ' '))) ++ "\n"))) :=
  ⟨⟨by decide, by decide, by decide, by decide⟩,
   C13_seed_round_trip 2 2 (by decide) (by decide) ["0", "1", "1", "0"] (by decide)
     (by decide)⟩

/-- C14: for every Game with a rectangular grid and every enumeration (permutation) of the
cell coordinates [0, width) x [0, height), computing the next grid by applying the active
rule to the old grid and writing each result with `Set` in that order yields the same grid
as the row-major loop of `TimeStep` (and both return when the grid has a row). -/
theorem C14_order_independence (g : Game) (w h : Nat) (hr : g.Grid.Rect w h)
    (order : List (Nat × Nat)) (hperm : order.Perm (cellCoordinates w h)) :
    g.nextGridInOrder order = g.TimeStep.map (fun g' => g'.Grid) ∧
      (1 ≤ h → ∃ next : InfectedLife.Grid, g.nextGridInOrder order = some next) := by
  have hcover : ∀ p : Nat × Nat, p ∈ order ↔ p.1 < w ∧ p.2 < h := fun p => by
    rw [hperm.mem_iff, mem_cellCoordinates]
  by_cases hh : 0 < h
  · obtain ⟨next, hnext, hstep⟩ := Game.nextGridInOrder_of_rect hr hh order hcover
    exact ⟨by rw [hnext, hstep]; rfl, fun _ => ⟨next, hnext⟩⟩
  · have hnil : g.Grid = [] := by
      have := hr.1
      exact List.length_eq_zero.mp (by omega)
    refine ⟨?_, fun h1 => absurd h1 (by omega)⟩
    simp [Game.nextGridInOrder, Game.TimeStep, hnil, Grid.Width, sliceIndex]

/-- C14, at the vertical blinker on the 3 by 3 grid, visiting the cells in the reverse of
the row-major order. -/
theorem C14_order_independence_witness :
    (Grid.Rect [[false, true, false], [false, true, false], [false, true, false]] 3 3 ∧
      List.Perm (cellCoordinates 3 3).reverse (cellCoordinates 3 3)) ∧
    (Game.nextGridInOrder
        ⟨[[false, true, false], [false, true, false], [false, true, false]], 1, 2, 0⟩
        (cellCoordinates 3 3).reverse =
      (Game.TimeStep
        ⟨[[false, true, false], [false, true, false], [false, true, false]], 1, 2, 0⟩).map
        (fun g' => g'.Grid) ∧
      (1 ≤ 3 → ∃ next : Grid, Game.nextGridInOrder
        ⟨[[false, true, false], [false, true, false], [false, true, false]], 1, 2, 0⟩
        (cellCoordinates 3 3).reverse = some next)) :=
  ⟨⟨by decide, List.reverse_perm _⟩,
   C14_order_independence
     ⟨[[false, true, false], [false, true, false], [false, true, false]], 1, 2, 0⟩ 3 3
     (by decide) (cellCoordinates 3 3).reverse (List.reverse_perm _)⟩

/-- C15: for every grid and every integer (x, y), out-of-bounds positions included,
`LiveNeighbours(x, y)` is the sum of `DiagonalLiveNeighbours(x, y)` and
`HorizontalAndVerticalLiveNeighbours(x, y)`: it returns exactly when both return, and then
their sum; each of the two summands lies in 0..4 and the total lies in 0..8. On every
rectangular grid (width, height >= 1) all three return at every position. -/
theorem C15_LiveNeighbours_sum (g : Grid) (x y : Int) :
    (∀ n : Int, g.LiveNeighbours x y = some n ↔
      ∃ d o : Int, g.DiagonalLiveNeighbours x y = some d ∧
        g.HorizontalAndVerticalLiveNeighbours x y = some o ∧ n = d + o) ∧
    (∀ d : Int, g.DiagonalLiveNeighbours x y = some d → 0 ≤ d ∧ d ≤ 4) ∧
    (∀ o : Int, g.HorizontalAndVerticalLiveNeighbours x y = some o → 0 ≤ o ∧ o ≤ 4) ∧
    (∀ n : Int, g.LiveNeighbours x y = some n → 0 ≤ n ∧ n ≤ 8) ∧
    (∀ w h : Nat, g.Rect w h → 1 ≤ w → 1 ≤ h →
      ∃ d o : Int, g.DiagonalLiveNeighbours x y = some d ∧
        g.HorizontalAndVerticalLiveNeighbours x y = some o ∧
        g.LiveNeighbours x y = some (d + o)) := by
  refine ⟨fun n => Grid.LiveNeighbours_eq_some, fun d hd => Grid.DiagonalLiveNeighbours_bounds hd,
    fun o ho => Grid.HorizontalAndVerticalLiveNeighbours_bounds ho, ?_, ?_⟩
  · intro n hn
    obtain ⟨d, o, hd, ho, rfl⟩ := Grid.LiveNeighbours_eq_some.mp hn
    have h1 := Grid.DiagonalLiveNeighbours_bounds hd
    have h2 := Grid.HorizontalAndVerticalLiveNeighbours_bounds ho
    omega
  · intro w h hr _ hh
    have hd := Grid.DiagonalLiveNeighbours_of_rect hr hh x y
    have ho := Grid.HorizontalAndVerticalLiveNeighbours_of_rect hr hh x y
    exact ⟨_, _, hd, ho, Grid.LiveNeighbours_eq_some.mpr ⟨_, _, hd, ho, rfl⟩⟩

/-- C15, at the corner (0, 0) of a 3 by 3 grid with seven live cells: one diagonal and two
orthogonal live neighbours. -/
theorem C15_LiveNeighbours_sum_witness :
    (Grid.DiagonalLiveNeighbours [[true, true, true], [true, true, true], [false, true, false]]
        0 0 = some 1 ∧
      Grid.HorizontalAndVerticalLiveNeighbours
        [[true, true, true], [true, true, true], [false, true, false]] 0 0 = some 2) ∧
    (Grid.LiveNeighbours [[true, true, true], [true, true, true], [false, true, false]]
        0 0 = some 3 ∧ ((0 : Int) ≤ 1 ∧ (1 : Int) ≤ 4) ∧ ((0 : Int) ≤ 2 ∧ (2 : Int) ≤ 4) ∧
      ((0 : Int) ≤ 3 ∧ (3 : Int) ≤ 8)) :=
  ⟨⟨by decide, by decide⟩,
   ((C15_LiveNeighbours_sum [[true, true, true], [true, true, true], [false, true, false]]
      0 0).1 3).mpr ⟨1, 2, by decide, by decide, by decide⟩,
   (C15_LiveNeighbours_sum [[true, true, true], [true, true, true], [false, true, false]]
      0 0).2.1 1 (by decide),
   (C15_LiveNeighbours_sum [[true, true, true], [true, true, true], [false, true, false]]
      0 0).2.2.1 2 (by decide),
   (C15_LiveNeighbours_sum [[true, true, true], [true, true, true], [false, true, false]]
      0 0).2.2.2.1 3 (by decide)⟩

/-- C18: for every Game whose grid is rectangular with width >= 1 and height >= 1, `Width`,
`Alive`, the three neighbour counts, `Life.Apply` and `Infection.Apply` at any integer
coordinates, and `TimeStep` (its `Set` calls on the new grid included) return a value: no
slice index is out of range. -/
theorem C18_totality (g : Game) (w h : Nat) (_hw : 1 ≤ w) (hh : 1 ≤ h)
    (hr : g.Grid.Rect w h) :
    g.Grid.Width = some (w : Int) ∧
    (∀ x y : Int,
      (∃ a : Bool, g.Grid.Alive x y = some a) ∧
      (∃ d : Int, g.Grid.DiagonalLiveNeighbours x y = some d) ∧
      (∃ o : Int, g.Grid.HorizontalAndVerticalLiveNeighbours x y = some o) ∧
      (∃ n : Int, g.Grid.LiveNeighbours x y = some n) ∧
      (∃ b : Bool, Life.Apply g.Grid x y = some b) ∧
      (∃ b : Bool, Infection.Apply g.Grid x y = some b)) ∧
    (∃ g' : Game, g.TimeStep = some g') := by
  refine ⟨Grid.Width_of_rect hr hh, ?_, ?_⟩
  · intro x y
    exact ⟨⟨_, Grid.Alive_of_rect hr hh x y⟩,
      ⟨_, Grid.DiagonalLiveNeighbours_of_rect hr hh x y⟩,
      ⟨_, Grid.HorizontalAndVerticalLiveNeighbours_of_rect hr hh x y⟩,
      ⟨_, Grid.LiveNeighbours_of_rect hr hh x y⟩,
      Life_Apply_isSome_of_rect hr hh x y,
      Infection_Apply_isSome_of_rect hr hh x y⟩
  · obtain ⟨next, hstep, _, _⟩ := Game.TimeStep_of_rect hr hh
    exact ⟨_, hstep⟩

/-- C18, at the 2 by 2 grid with one live cell, in the Infection regime. -/
theorem C18_totality_witness :
    (1 ≤ 2 ∧ 1 ≤ 2 ∧ Grid.Rect [[true, false], [false, false]] 2 2) ∧
    (Grid.Width [[true, false], [false, false]] = some ((2 : Nat) : Int) ∧
    (∀ x y : Int,
      (∃ a : Bool, Grid.Alive [[true, false], [false, false]] x y = some a) ∧
      (∃ d : Int, Grid.DiagonalLiveNeighbours [[true, false], [false, false]] x y = some d) ∧
      (∃ o : Int, Grid.HorizontalAndVerticalLiveNeighbours [[true, false], [false, false]]
        x y = some o) ∧
      (∃ n : Int, Grid.LiveNeighbours [[true, false], [false, false]] x y = some n) ∧
      (∃ b : Bool, Life.Apply [[true, false], [false, false]] x y = some b) ∧
      (∃ b : Bool, Infection.Apply [[true, false], [false, false]] x y = some b)) ∧
    (∃ g' : Game, Game.TimeStep ⟨[[true, false], [false, false]], 1, 5, 3⟩ = some g')) :=
  ⟨⟨by decide, by decide, by decide⟩,
   C18_totality ⟨[[true, false], [false, false]], 1, 5, 3⟩ 2 2
     (by decide) (by decide) (by decide)⟩

/-- C19: the all-dead grid is a fixed point of stepping in both regimes: for every
w, h >= 1 and every generation counter and InfectAfter value, `TimeStep` on a Game holding
the all-dead w by h grid returns the all-dead w by h grid (with the counter grown by 1), so
after any number of further steps the grid is still all dead. -/
theorem C19_dead_grid_fixed_point (w h : Int) (hw : 1 ≤ w) (hh : 1 ≤ h)
    (infectAfter maxGenerations generation : Int) :
    ∃ dead : Grid, NewGrid w h = some dead ∧
      (∀ x y : Int, dead.Alive x y = some false) ∧
      Game.TimeStep ⟨dead, infectAfter, maxGenerations, generation⟩ =
        some ⟨dead, infectAfter, maxGenerations, generation + 1⟩ ∧
      ∀ k : Nat, Game.steps k ⟨dead, infectAfter, maxGenerations, generation⟩ =
        some ⟨dead, infectAfter, maxGenerations, generation + (k : Int)⟩ := by
  have hwe : ((w.toNat : Nat) : Int) = w := Int.toNat_of_nonneg (by omega)
  have hhe : ((h.toNat : Nat) : Int) = h := Int.toNat_of_nonneg (by omega)
  have hhn : 0 < h.toNat := by omega
  have hnew := NewGrid_natCast w.toNat h.toNat hhn
  rw [hwe, hhe] at hnew
  refine ⟨_, hnew, ?_, Game.TimeStep_replicate _ _ hhn _ _ _,
    fun k => Game.steps_replicate _ _ hhn _ _ _ k⟩
  intro x y
  rw [Grid.Alive_of_rect (rect_replicate _ _) hhn, cell_replicate]
  simp

/-- C19, at the all-dead 3 by 2 grid in the Infection regime. -/
theorem C19_dead_grid_fixed_point_witness :
    ((1 : Int) ≤ 3 ∧ (1 : Int) ≤ 2) ∧
    ∃ dead : Grid, NewGrid 3 2 = some dead ∧
      (∀ x y : Int, dead.Alive x y = some false) ∧
      Game.TimeStep ⟨dead, 1, 9, 4⟩ = some ⟨dead, 1, 9, 4 + 1⟩ ∧
      ∀ k : Nat, Game.steps k ⟨dead, 1, 9, 4⟩ = some ⟨dead, 1, 9, 4 + (k : Int)⟩ :=
  ⟨⟨by decide, by decide⟩, C19_dead_grid_fixed_point 3 2 (by decide) (by decide) 1 9 4⟩

/-- C20: for every w, h >= 1, `parseSeed` accepts a seed with fewer than w*h
space-separated tokens and returns a w by h grid whose cells follow the tokens and whose
every cell past the last token is dead, while on a seed with more than w*h tokens the loop,
having decoded the first w*h tokens, calls `Set` with x = 0 and y = h for the token of
index w*h, an out-of-range write that fails, so that `parseSeed` returns no grid. -/
theorem C20_seed_length (w h : Nat) (hw : 1 ≤ w) (hh : 1 ≤ h) (seed : String) :
    ((stringsSplit seed).length < w * h →
      ∃ g : Grid, parseSeed (w : Int) (h : Int) seed = some g ∧ g.Rect w h ∧
        (∀ x y : Nat, x < w → y < h →
          (g.Alive (x : Int) (y : Int) = some true ↔
            (stringsSplit seed)[y * w + x]? = some "1")) ∧
        (∀ x y : Nat, x < w → y < h → (stringsSplit seed).length ≤ y * w + x →
          g.Alive (x : Int) (y : Int) = some false)) ∧
    (w * h < (stringsSplit seed).length →
      parseSeed (w : Int) (h : Int) seed = none ∧
      Int.tdiv ((w * h : Nat) : Int) (w : Int) = (h : Int) ∧
      Int.tmod ((w * h : Nat) : Int) (w : Int) = 0 ∧
      ∃ (g1 : Grid) (tok : String) (rest : List (Nat × String)),
        (stringsSplit seed).enum =
          ((stringsSplit seed).take (w * h)).enum ++ (w * h, tok) :: rest ∧
        ((stringsSplit seed).take (w * h)).enum.foldlM (parseSeedBody (w : Int))
          (List.replicate h (List.replicate w false)) = some g1 ∧
        parseSeedBody (w : Int) g1 (w * h, tok) = g1.Set 0 (h : Int) (decide (tok = "1")) ∧
        g1.Set 0 (h : Int) (decide (tok = "1")) = none) := by
  constructor
  · intro hlt
    obtain ⟨g, hparse, hrect, hcell⟩ := parseSeed_of_le hw hh seed (Nat.le_of_lt hlt)
    refine ⟨g, hparse, hrect, ?_, ?_⟩
    · intro x y hx hy
      rw [Grid.Alive_natCast_of_rect hrect hx hy, hcell x y hx hy]
      simp
    · intro x y hx hy hpast
      rw [Grid.Alive_natCast_of_rect hrect hx hy, hcell x y hx hy,
        List.getElem?_eq_none hpast]
      simp
  · intro hgt
    obtain ⟨hnone, hrest⟩ := parseSeed_of_gt hw hh seed hgt
    refine ⟨hnone, ?_, ?_, hrest⟩
    · rw [← Int.ofNat_tdiv, Nat.mul_div_cancel_left h hw]
    · rw [← Int.ofNat_tmod, Nat.mul_mod_right]
      rfl

/-- C20, at the 3 by 3 seeds "0 1" (two tokens) and "0 0 0 0 1 0 0 0 0 1" (ten tokens). -/
theorem C20_seed_length_witness :
    ((1 ≤ 3 ∧ 1 ≤ 3 ∧ (stringsSplit "0 1").length < 3 * 3) ∧
      ∃ g : Grid, parseSeed ((3 : Nat) : Int) ((3 : Nat) : Int) "0 1" = some g ∧
        g.Rect 3 3 ∧
        (∀ x y : Nat, x < 3 → y < 3 →
          (g.Alive (x : Int) (y : Int) = some true ↔
            (stringsSplit "0 1")[y * 3 + x]? = some "1")) ∧
        (∀ x y : Nat, x < 3 → y < 3 → (stringsSplit "0 1").length ≤ y * 3 + x →
          g.Alive (x : Int) (y : Int) = some false)) ∧
    ((3 * 3 < (stringsSplit "0 0 0 0 1 0 0 0 0 1").length) ∧
      parseSeed ((3 : Nat) : Int) ((3 : Nat) : Int) "0 0 0 0 1 0 0 0 0 1" = none) :=
  ⟨⟨⟨by decide, by decide, by decide⟩,
    (C20_seed_length 3 3 (by decide) (by decide) "0 1").1 (by decide)⟩,
   ⟨by decide,
    ((C20_seed_length 3 3 (by decide) (by decide) "0 0 0 0 1 0 0 0 0 1").2 (by decide)).1⟩⟩

end InfectedLife
